import Mathlib

/-!
Verification development for the neural-net-builder engine.

The definitions below are a shallow embedding of the TypeScript engine:
* `src/engine/nodes/BaseNode.ts`, `BrainNode.ts`, `InputNode.ts` (shipped as
  unnamed parts of the repository), `src/engine/nodes/OutputNode.ts`,
  `src/engine/Node.ts` — the node state machines;
* `src/engine/NeuralNet.ts` — wiring, propagation and plasticity.

Modelling conventions:
* JavaScript numbers are modelled as `ℚ` (the engine only adds, multiplies,
  divides and compares; no claim below depends on float rounding).
* `Math.random()` draws are an explicit oracle: either a `Bool` argument
  (for the `< 0.5` refractory-jitter coin) or a stream `rng : ℕ → ℚ` of
  draws, each of which a genuine execution keeps in `[0,1)`.
* `Math.sin`/`Math.atan2` values are oracles as well (`ℚ`-valued arguments);
  no theorem depends on their values.
* JS `Map` objects are association lists keeping insertion order;
  `Map.set` replaces in place, `Map.delete` removes.
* The `incoming` cache of `NeuralNet` always equals
  `connections.filter (targetId = ·)` in list order (the code re-establishes
  exactly this after every structural change, and `addConnection` appends to
  both sides), so it is modelled as the derived function `NeuralNet.incoming`.
* `refractoryPeriod`/`refractoryTimer` are `ℕ` (the code only assigns
  `period + {0,1}` and decrements under a `> 0` guard).
-/

namespace NNB

/-- `NodeType` from `src/engine/types.ts`. -/
inductive NodeType where
  | INPUT | HIDDEN | INTERPRETATION | OUTPUT | CONCEPT | LEARNED
deriving DecidableEq, Repr

/-- `ActivationType` from `src/engine/types.ts`. -/
inductive ActivationType where
  | SUSTAINED | PULSE
deriving DecidableEq, Repr

/-- `InputType` from `src/engine/types.ts`. -/
inductive InputType where
  | PULSE | SIN | NOISE
deriving DecidableEq, Repr

/-- `NeuronType` (Dale's principle tag).  The field is declared on the
`BaseNode` class (its file is not under `src/`; `NeuralNet.ts` reads and
writes it as the strings `EXCITATORY` / `INHIBITORY`). -/
inductive NeuronType where
  | EXCITATORY | INHIBITORY
deriving DecidableEq, Repr

/-- `SustainabilityConfig`: the fields the engine actually reads
(`BrainNode.update` and `NeuralNet.step`). -/
structure SustainabilityConfig where
  adaptiveThreshold : Bool
  adaptationSpeed : ℚ
  targetRate : ℚ
  synapticScaling : Bool
  scalingPeriod : ℕ
  targetSum : ℚ
deriving DecidableEq, Repr

/-- The mutable state shared by all node classes (`BaseNode` plus the fields
of the legacy `Node` class of `src/engine/Node.ts`).  `timer` is the private
generator timer of `InputNode`.  `neuronType` and `averageFiringRate` are the
`BaseNode` fields used by `NeuralNet.ts`. -/
structure NodeState where
  id : String
  type : NodeType
  x : ℚ
  y : ℚ
  label : String
  potential : ℚ
  activation : ℚ
  isFiring : Bool
  bias : ℚ
  decay : ℚ
  threshold : ℚ
  maxPotential : ℚ
  activationType : ActivationType
  inputType : InputType
  inputFrequency : ℚ
  fatigue : ℚ
  recovery : ℚ
  currentThreshold : ℚ
  refractoryPeriod : ℕ
  refractoryTimer : ℕ
  sustainability : Option SustainabilityConfig
  neuronType : NeuronType
  averageFiringRate : ℚ
  timer : ℚ
deriving DecidableEq, Repr

/-- `NodeConfig` from `src/engine/types.ts` (plus the `neuronType` field that
`NeuralNet.addModule` passes for brain nodes). -/
structure NodeConfig where
  id : String
  type : NodeType
  x : ℚ
  y : ℚ
  label : Option String := none
  bias : Option ℚ := none
  threshold : Option ℚ := none
  refractoryPeriod : Option ℕ := none
  activationType : Option ActivationType := none
  decay : Option ℚ := none
  inputFrequency : Option ℚ := none
  maxPotential : Option ℚ := none
  inputType : Option InputType := none
  fatigue : Option ℚ := none
  recovery : Option ℚ := none
  neuronType : Option NeuronType := none
  sustainability : Option SustainabilityConfig := none
deriving Repr

/-- The `BaseNode` constructor (shared defaults; `config.bias || 0` agrees
with `getD 0` because `|| ` only replaces the falsy `0` by `0` itself). -/
def BaseNode.init (cfg : NodeConfig) : NodeState where
  id := cfg.id
  type := cfg.type
  x := cfg.x
  y := cfg.y
  label := cfg.label.getD ""
  potential := 0
  activation := 0
  isFiring := false
  bias := cfg.bias.getD 0
  decay := 0
  threshold := cfg.threshold.getD 1
  maxPotential := cfg.maxPotential.getD 3
  activationType := cfg.activationType.getD .PULSE
  inputType := cfg.inputType.getD .PULSE
  inputFrequency := cfg.inputFrequency.getD 1
  fatigue := cfg.fatigue.getD 0
  recovery := cfg.recovery.getD 0
  currentThreshold := cfg.threshold.getD 1
  refractoryPeriod := 0
  refractoryTimer := 0
  sustainability := cfg.sustainability
  neuronType := cfg.neuronType.getD .EXCITATORY
  averageFiringRate := 0
  timer := 0

/-- The `BrainNode` constructor. -/
def BrainNode.init (cfg : NodeConfig) : NodeState :=
  { BaseNode.init cfg with
      decay := cfg.decay.getD (9/10)
      refractoryPeriod := cfg.refractoryPeriod.getD 2 }

/-- The `InputNode` constructor. -/
def InputNode.init (cfg : NodeConfig) : NodeState :=
  { BaseNode.init cfg with
      inputType := cfg.inputType.getD .PULSE
      inputFrequency := cfg.inputFrequency.getD 1
      decay := 0
      threshold := 0 }

/-- The `OutputNode` constructor (standard pulse actuator). -/
def OutputNode.init (cfg : NodeConfig) : NodeState :=
  { BaseNode.init cfg with decay := 0 }

/-- The `SustainedOutputNode` constructor. -/
def SustainedOutputNode.init (cfg : NodeConfig) : NodeState :=
  { BaseNode.init cfg with
      activationType := .SUSTAINED
      decay := cfg.decay.getD (9/10) }

/-- The legacy `Node` class constructor (`src/engine/Node.ts`): output and
interpretation nodes get `decay = 0` unless SUSTAINED, brain nodes keep a
`0.9` default. -/
def Node.init (cfg : NodeConfig) : NodeState :=
  let base := BaseNode.init cfg
  let act := cfg.activationType.getD .PULSE
  let dec :=
    if cfg.type = .OUTPUT ∨ cfg.type = .INTERPRETATION then
      (if act = .SUSTAINED then cfg.decay.getD (9/10) else 0)
    else cfg.decay.getD (9/10)
  { base with
      activationType := act
      decay := dec
      refractoryPeriod := cfg.refractoryPeriod.getD 2
      maxPotential := cfg.maxPotential.getD 3 }

/-- The base threshold after the adaptive "raise shield" step that follows
a fire in `BrainNode.update` (unchanged unless `sustainability` enables
adaptive thresholds). -/
def adaptiveRaise (n : NodeState) : ℚ :=
  match n.sustainability with
  | some su => if su.adaptiveThreshold then n.threshold + su.adaptationSpeed else n.threshold
  | none => n.threshold

/-- The base threshold after the adaptive "lower shield" step of a
non-firing tick in `BrainNode.update`, floored at `0.1`. -/
def adaptiveLower (n : NodeState) : ℚ :=
  match n.sustainability with
  | some su =>
    if su.adaptiveThreshold then
      (if n.threshold - su.adaptationSpeed * su.targetRate < 1/10 then 1/10
       else n.threshold - su.adaptationSpeed * su.targetRate)
    else n.threshold
  | none => n.threshold

/-- Steps 2–4 of the shared tick algorithm: integrate (`+= inputSum +
bias`), decay (`*= decay`), clamp into `[0, maxPotential]`. -/
def integrateClamp (n : NodeState) (inputSum : ℚ) : ℚ :=
  let p2 := (n.potential + inputSum + n.bias) * n.decay
  let p3 := if p2 < 0 then 0 else p2
  if p3 > n.maxPotential then n.maxPotential else p3

/-- The `OutputNode` pipeline: integrate without decay, clamp only from
above (`OutputNode.update` never clamps negatives — it hard-resets at the
end regardless). -/
def outputClamp (n : NodeState) (inputSum : ℚ) : ℚ :=
  let p1 := n.potential + inputSum + n.bias
  if p1 > n.maxPotential then n.maxPotential else p1

/-- Step 5 (fatigue recovery) of `BrainNode.update`: the current threshold
drifts down by `recovery`, floored at the base threshold; no drift when
already at or below the base. -/
def effectiveCT (n : NodeState) : ℚ :=
  if n.currentThreshold > n.threshold then
    (if n.currentThreshold - n.recovery < n.threshold then n.threshold
     else n.currentThreshold - n.recovery)
  else n.currentThreshold

/-- `BrainNode.update` (unnamed part `BrainNode.ts`).  `jitter` is the
`Math.random() < 0.5 ? 0 : 1` draw made inside `fire()`; the pipeline steps
are factored into `integrateClamp`, `effectiveCT` and
`adaptiveRaise`/`adaptiveLower`. -/
def BrainNode.update (n : NodeState) (inputSum : ℚ) (jitter : Bool) : NodeState :=
  if n.refractoryTimer > 0 then
    { n with refractoryTimer := n.refractoryTimer - 1, isFiring := false, activation := 0 }
  else if integrateClamp n inputSum ≥ effectiveCT n then
    { n with
        potential := integrateClamp n inputSum - effectiveCT n
        isFiring := true
        activation := 1
        currentThreshold := effectiveCT n + n.fatigue
        refractoryTimer := n.refractoryPeriod + (if jitter then 1 else 0)
        threshold := adaptiveRaise n }
  else
    { n with
        potential := integrateClamp n inputSum
        currentThreshold := effectiveCT n
        isFiring := false
        activation := 0
        threshold := adaptiveLower n }

/-- `OutputNode.update` (`src/engine/nodes/OutputNode.ts`): integrate, clamp
to `maxPotential`, fire test against the base threshold, hard reset in both
branches. -/
def OutputNode.update (n : NodeState) (inputSum : ℚ) : NodeState :=
  if outputClamp n inputSum ≥ n.threshold then
    { n with potential := 0, isFiring := true, activation := 1 }
  else
    { n with potential := 0, isFiring := false, activation := 0 }

/-- `SustainedOutputNode.update` (`src/engine/nodes/OutputNode.ts`):
integrate, decay, clamp, fire test; no reset and no refractory check. -/
def SustainedOutputNode.update (n : NodeState) (inputSum : ℚ) : NodeState :=
  if integrateClamp n inputSum ≥ n.threshold then
    { n with potential := integrateClamp n inputSum, isFiring := true, activation := 1 }
  else
    { n with potential := integrateClamp n inputSum, isFiring := false, activation := 0 }

/-- `InputNode.update` (unnamed part `InputNode.ts`).  `sinVal` stands for
the `Math.sin(timer * inputFrequency)` value (a transcendental the model
takes as an oracle in `[-1,1]`); `r1 r2` are the two NOISE-mode
`Math.random()` draws. -/
def InputNode.update (n : NodeState) (sinVal r1 r2 : ℚ) : NodeState :=
  match n.inputType with
  | .SIN =>
      let t := n.timer + 1/10
      let act := (sinVal + 1) / 2
      { n with timer := t, activation := act, potential := act, isFiring := act > 1/2 }
  | .NOISE =>
      if r1 < n.inputFrequency * (1/10) then
        { n with activation := r2, potential := r2, isFiring := true }
      else
        { n with activation := 0, potential := 0, isFiring := false }
  | .PULSE => { n with potential := 0, activation := 0, isFiring := false }

/-- `InputNode.setInput` (also the shape of the legacy `Node.setInput`):
writes the raw value into `potential` and `activation` with no clamping. -/
def InputNode.setInput (n : NodeState) (val : ℚ) : NodeState :=
  { n with potential := val, activation := val, isFiring := val ≥ 4/5 }

/-- `BaseNode.setInput` (default implementation): writes the raw value into
`potential`. -/
def BaseNode.setInput (n : NodeState) (val : ℚ) : NodeState :=
  { n with potential := val }

/-- The legacy `Node.update` (`src/engine/Node.ts`).  The refractory gate
sits inside the `potential ≥ currentThreshold` branch; the trailing
"fire and forget" block zeroes the potential of every non-SUSTAINED node
except on the refractory early return. -/
def effectiveCTClassic (n : NodeState) : ℚ :=
  if n.currentThreshold > n.threshold then
    (if n.currentThreshold - n.recovery < n.threshold then n.threshold
     else n.currentThreshold - n.recovery)
  else (if n.currentThreshold < n.threshold then n.threshold else n.currentThreshold)

def Node.update (n : NodeState) (inputSum : ℚ) (jitter : Bool) : NodeState :=
  if integrateClamp n inputSum ≥ effectiveCTClassic n then
    (if n.refractoryTimer > 0 then
      { n with
          potential :=
            if n.activationType = .PULSE then 0 else integrateClamp n inputSum
          currentThreshold := effectiveCTClassic n
          refractoryTimer := n.refractoryTimer - 1
          isFiring := false
          activation := 0 }
    else
      { n with
          potential :=
            if n.activationType ≠ ActivationType.SUSTAINED then 0
            else if n.type = NodeType.OUTPUT then integrateClamp n inputSum
            else integrateClamp n inputSum - effectiveCTClassic n
          currentThreshold := effectiveCTClassic n + n.fatigue
          isFiring := true
          activation := 1
          refractoryTimer := n.refractoryPeriod + (if jitter then 1 else 0) })
  else
    { n with
        potential := if n.activationType ≠ ActivationType.SUSTAINED then 0
          else integrateClamp n inputSum
        currentThreshold := effectiveCTClassic n
        isFiring := false
        activation := 0
        refractoryTimer := n.refractoryTimer - 1 }

/-- Iterated `BrainNode.update` driven by an input stream and a jitter
stream: `BrainNode.run n inp jit t` is the state after tick `t`. -/
def BrainNode.run (n : NodeState) (inp : ℕ → ℚ) (jit : ℕ → Bool) : ℕ → NodeState
  | 0 => n
  | t + 1 => BrainNode.update (BrainNode.run n inp jit t) (inp t) (jit t)

/-- Iterated `SustainedOutputNode.update`. -/
def SustainedOutputNode.run (n : NodeState) (inp : ℕ → ℚ) : ℕ → NodeState
  | 0 => n
  | t + 1 => SustainedOutputNode.update (SustainedOutputNode.run n inp t) (inp t)

/-- Iterated legacy `Node.update`. -/
def Node.run (n : NodeState) (inp : ℕ → ℚ) (jit : ℕ → Bool) : ℕ → NodeState
  | 0 => n
  | t + 1 => Node.update (Node.run n inp jit t) (inp t) (jit t)

/-- The 1-node scenario unit of §8 of the spec: PULSE brain node with
`threshold 1`, `decay 0.9`, `refractoryPeriod 2`, no bias/fatigue. -/
def scenarioBrainNode : NodeState :=
  BrainNode.init
    { id := "t", type := .HIDDEN, x := 0, y := 0,
      threshold := some 1, decay := some (9/10), refractoryPeriod := some 2 }

/-- The sustained actuator of Scenario 2 (same parameters, SUSTAINED). -/
def scenarioSustainedNode : NodeState :=
  SustainedOutputNode.init
    { id := "t", type := .OUTPUT, x := 0, y := 0,
      threshold := some 1, decay := some (9/10), refractoryPeriod := some 2,
      activationType := some .SUSTAINED }

/-- The legacy-`Node` sustained actuator of Scenario 2
(`type OUTPUT`, `activationType SUSTAINED`). -/
def scenarioClassicSustained : NodeState :=
  Node.init
    { id := "t", type := .OUTPUT, x := 0, y := 0,
      threshold := some 1, decay := some (9/10), refractoryPeriod := some 2,
      activationType := some .SUSTAINED }

/-- A concrete sensor node (INPUT, manual PULSE feed). -/
def scenarioSensorNode : NodeState :=
  InputNode.init { id := "in", type := .INPUT, x := 0, y := 0 }

/-! ## Net layer: `src/engine/NeuralNet.ts` -/

/-- `ModuleType` from `src/engine/types.ts`. -/
inductive ModuleType where
  | BRAIN | LAYER | INPUT | OUTPUT | SUSTAINED_OUTPUT | CONCEPT | LEARNED_OUTPUT | TRAINING_DATA
deriving DecidableEq, Repr

/-- `ConnectionSide` from `src/engine/types.ts`. -/
inductive ConnectionSide where
  | ALL | LEFT | RIGHT
deriving DecidableEq, Repr

/-- The `Connection` class (`src/engine/Connection.ts`). -/
structure Connection where
  id : String
  sourceId : String
  targetId : String
  weight : ℚ
  signalStrength : ℚ := 0
deriving DecidableEq, Repr

/-- `ConnectionConfig` is a `Connection` without the transient
`signalStrength`; the constructor starts it at `0`, so configs are passed
as `Connection` values with `signalStrength := 0`. -/
abbrev ConnectionConfig := Connection

/-- `ModuleConnectionConfig` from `src/engine/types.ts`. -/
structure ModuleConnectionConfig where
  sourceId : String
  targetId : String
  coverage : ℚ
  localizer : ℚ
  srcSide : ConnectionSide
  tgtSide : ConnectionSide
deriving DecidableEq, Repr

/-- The slice of `ModuleConfig` (`src/engine/types.ts`) the embedded
operations read.  Optional TS fields are `Option`s. -/
structure ModuleConfig where
  id : String
  type : ModuleType
  x : ℚ
  y : ℚ
  nodeCount : ℕ
  depth : Option ℕ := none
  gain : Option ℚ := none
  hebbianLearning : Option Bool := none
  learningRate : Option ℚ := none
  pruningThreshold : Option ℚ := none
  regrowthRate : Option ℚ := none
  isLocalized : Option Bool := none
  localizationLeak : Option ℚ := none
  synapsesPerNode : Option ℕ := none
  initialWeightModifier : Option ℚ := none
  sustainability : Option SustainabilityConfig := none
deriving DecidableEq, Repr

/-- JS `o || d` for an optional number: `0` (falsy) also falls through to
the default. -/
def qOr (o : Option ℚ) (d : ℚ) : ℚ :=
  match o with
  | some v => if v = 0 then d else v
  | none => d

/-- JS `o || d` for an optional natural. -/
def natOr (o : Option ℕ) (d : ℕ) : ℕ :=
  match o with
  | some v => if v = 0 then d else v
  | none => d

/-- JS `Map.get`. -/
def alistGet {β : Type} (l : List (String × β)) (k : String) : Option β :=
  (l.find? (fun p => p.1 == k)).map (·.2)

/-- JS `Map.set`: replace in place if the key is present, else append. -/
def alistSet {β : Type} (l : List (String × β)) (k : String) (v : β) : List (String × β) :=
  if l.any (fun p => p.1 == k) then l.map (fun p => if p.1 == k then (k, v) else p)
  else l ++ [(k, v)]

/-- JS `Map.delete`. -/
def alistDelete {β : Type} (l : List (String × β)) (k : String) : List (String × β) :=
  l.filter (fun p => ¬ p.1 == k)

/-- JS `String.prototype.startsWith`, modelled on the character list (the
built-in `String.startsWith` is byte-position based and does not reduce
definitionally). -/
def strBegins (s pre : String) : Bool := pre.data.isPrefixOf s.data

/-- The `NeuralNet` state.  `nodes` and `modules` are the JS `Map`s in
insertion order (keys are the `id` fields). -/
structure NeuralNet where
  nodes : List NodeState
  connections : List Connection
  modules : List ModuleConfig
  moduleConnections : List (String × ModuleConnectionConfig)
  nodeModuleMap : List (String × String)
  tickCount : ℕ
deriving Repr

/-- `this.nodes.get id`. -/
def NeuralNet.getNode (s : NeuralNet) (id : String) : Option NodeState :=
  s.nodes.find? (fun n => n.id == id)

/-- `this.modules.get id`. -/
def NeuralNet.getModule (s : NeuralNet) (id : String) : Option ModuleConfig :=
  s.modules.find? (fun m => m.id == id)

/-- The `incoming` cache: always `connections.filter (targetId = ·)` in
list order (see the conventions note at the top of the file). -/
def NeuralNet.incoming (s : NeuralNet) (targetId : String) : List Connection :=
  s.connections.filter (fun c => c.targetId == targetId)

/-- `NeuralNet.normalizeSustainedWeights`: if the node belongs to a
`SUSTAINED_OUTPUT` module, overwrite every incoming weight with
`gain / incomingCount` (default gain `3.0`). -/
def NeuralNet.normalizeSustainedWeights (s : NeuralNet) (nodeId : String) : NeuralNet :=
  match alistGet s.nodeModuleMap nodeId with
  | none => s
  | some moduleId =>
    match s.getModule moduleId with
    | none => s
    | some m =>
      if m.type ≠ .SUSTAINED_OUTPUT then s
      else
        match s.getNode nodeId with
        | none => s
        | some _ =>
          let inc := s.incoming nodeId
          if inc.length = 0 then s
          else
            let gain := m.gain.getD 3
            let newWeight := gain / (inc.length : ℚ)
            { s with connections :=
                s.connections.map (fun c =>
                  if c.targetId == nodeId then { c with weight := newWeight } else c) }

/-- `NeuralNet.addConnection`: push the connection (the `incoming` cache
update keeps the representation invariant), then renormalize sustained
targets. -/
def NeuralNet.addConnection (s : NeuralNet) (cfg : ConnectionConfig) : NeuralNet :=
  let s1 := { s with connections := s.connections ++ [{ cfg with signalStrength := 0 }] }
  s1.normalizeSustainedWeights cfg.targetId

/-- `NeuralNet.disconnectModules`: drop every connection whose endpoint
modules (via `nodeModuleMap`) are the given pair in either direction, and
delete both stored link configs. -/
def NeuralNet.disconnectModules (s : NeuralNet) (modId1 modId2 : String) : NeuralNet :=
  let conns := s.connections.filter (fun c =>
    let srcMod := alistGet s.nodeModuleMap c.sourceId
    let tgtMod := alistGet s.nodeModuleMap c.targetId
    ¬ ((srcMod == some modId1 ∧ tgtMod == some modId2) ∨
       (srcMod == some modId2 ∧ tgtMod == some modId1)))
  { s with
      connections := conns
      moduleConnections :=
        alistDelete (alistDelete s.moduleConnections (modId1 ++ "-" ++ modId2))
          (modId2 ++ "-" ++ modId1) }

/-- `Math.floor` of a nonnegative rational as a natural. -/
def ratFloorNat (q : ℚ) : ℕ := (Int.floor q).toNat

/-- `Math.floor(r * len)` used as an array index.  `none` models the
out-of-range access JS would make if the draw were outside `[0,1)`
(`Math.random()` never is; theorems that need it assume draws in `[0,1)`). -/
def floorIndex (r : ℚ) (len : ℕ) : Option ℕ :=
  let i := Int.floor (r * (len : ℚ))
  if 0 ≤ i ∧ i < (len : ℤ) then some i.toNat else none

/-- `getRelativeLocation`: angular position for brain modules (the
`atan2`-based value is the oracle `angleOf`), normalized linear index for
the rest. -/
def relLocation (angleOf : String → ℚ) (n : NodeState) (m : ModuleConfig)
    (index total : ℕ) : ℚ :=
  if m.type = .BRAIN then angleOf n.id
  else if total ≤ 1 then 1/2
  else (index : ℚ) / ((total : ℚ) - 1)

/-- `getRelativeDist`: circular distance when both endpoints are brain
modules, linear otherwise. -/
def relDist (a b : ℚ) (bothCircular : Bool) : ℚ :=
  let d := |a - b|
  if bothCircular then (if d > 1/2 then 1 - d else d) else d

/-- Squared Euclidean distance between two nodes (the localized sort
compares `dA - dB`, so squared distances suffice and stay rational). -/
def distSq (a b : NodeState) : ℚ := (a.x - b.x) ^ 2 + (a.y - b.y) ^ 2

/-- One iteration of the target-selection loop of
`rewireInternalConnections` (the `for k` body): pick a candidate (closest /
random-with-leak / shuffled head), compute the Dale-consistent initial
weight, and add the connection.  The fold state is
`(remaining candidates, net, next rng index)`. -/
def rewireStep (rng : ℕ → ℚ) (m : ModuleConfig) (source : NodeState)
    (cpn : ℕ) (isLocalized : Bool) (leak tp : ℚ)
    (st : List NodeState × NeuralNet × ℕ) (k : ℕ) : List NodeState × NeuralNet × ℕ :=
  let (cands, s, ri) := st
  let pick : Option NodeState × List NodeState × ℕ :=
    if isLocalized ∧ m.type = .BRAIN then
      let roll := rng ri * 100
      if roll ≥ leak then
        match cands with
        | [] => (none, cands, ri + 1)
        | t :: rest => (some t, rest, ri + 1)
      else
        match floorIndex (rng (ri + 1)) cands.length with
        | some i => (cands.get? i, cands.eraseIdx i, ri + 2)
        | none => (none, cands, ri + 2)
    else
      match cands with
      | [] => (none, cands, ri)
      | t :: rest => (some t, rest, ri)
  match pick with
  | (none, cands', ri') => (cands', s, ri')
  | (some target, cands', ri') =>
    let currentIncoming := (s.incoming target.id).length
    let estimatedTotalInputs := currentIncoming + cpn
    let idealWeight0 := 1 / ((max 1 estimatedTotalInputs : ℕ) * tp)
    let idealWeight := min idealWeight0 (1/2)
    let r := rng ri'
    let finalWeight :=
      if source.neuronType = .EXCITATORY then idealWeight * (1/2 + r)
      else -(idealWeight * 3) * (1/2 + r)
    let s' := s.addConnection
      { id := "c-" ++ source.id ++ "-" ++ target.id ++ "-" ++ toString k,
        sourceId := source.id, targetId := target.id, weight := finalWeight }
    (cands', s', ri' + 1)

/-- `NeuralNet.rewireInternalConnections`: delete the module's internal
connections, then give each node `synapsesPerNode` fresh targets with
Dale-consistent initial weights.  `shuffle` is the oracle standing for the
random-comparator `Array.sort` (an unspecified reordering); `rng` draws
start at index `ri`. -/
def NeuralNet.rewireInternalConnections (rng : ℕ → ℚ)
    (shuffle : List NodeState → List NodeState) (s : NeuralNet) (moduleId : String)
    (ri : ℕ) : NeuralNet × ℕ :=
  match s.getModule moduleId with
  | none => (s, ri)
  | some m =>
    let s1 := { s with connections := s.connections.filter (fun c =>
        ¬ (alistGet s.nodeModuleMap c.sourceId == some moduleId ∧
           alistGet s.nodeModuleMap c.targetId == some moduleId)) }
    let nodes := s1.nodes.filter (fun n => strBegins n.id (moduleId ++ "-"))
    let cpn := natOr m.synapsesPerNode 2
    let isLocalized := m.isLocalized.getD false
    let leak := qOr m.localizationLeak 0
    let tp := m.initialWeightModifier.getD (1/5)
    nodes.foldl (fun (acc : NeuralNet × ℕ) source =>
      let candidates0 := nodes.filter (fun n => ¬ n.id == source.id)
      let candidates :=
        if isLocalized ∧ m.type = .BRAIN then
          candidates0.mergeSort (fun a b => distSq a source ≤ distSq b source)
        else shuffle candidates0
      let count := min cpn candidates.length
      let res := (List.range count).foldl
        (rewireStep rng m source cpn isLocalized leak tp)
        (candidates, acc.1, acc.2)
      (res.2.1, res.2.2)) (s1, ri)

/-- `getNodesForSide` (local helper of `connectModules`): all nodes of the
module for brain modules or side `ALL`; otherwise the nodes of the first or
last column, recovered by parsing the `modId-depth-index` id (the model's
`String.toNat?` stands for `parseInt`; a failed parse compares unequal,
like `NaN`). -/
def NeuralNet.getNodesForSide (s : NeuralNet) (modId : String) (side : ConnectionSide) :
    List NodeState :=
  match s.getModule modId with
  | none => []
  | some m =>
    let allNodes := s.nodes.filter (fun n => strBegins n.id (modId ++ "-"))
    if m.type = .BRAIN then allNodes
    else if side = .ALL then allNodes
    else
      let depth := natOr m.depth 1
      let targetCol : ℕ := if side = .LEFT then 0 else depth - 1
      allNodes.filter (fun n =>
        let suffix := n.id.drop (modId.length + 1)
        match (suffix.splitOn "-").head? with
        | some dStr =>
          match dStr.toNat? with
          | some d => d == targetCol
          | none => false
        | none => false)

/-- Overwrite the `isLocalized` flag of a stored module config (the
`targetMod.isLocalized = true` in-place mutation inside `connectModules`). -/
def NeuralNet.setModuleLocalized (s : NeuralNet) (modId : String) : NeuralNet :=
  { s with modules := s.modules.map (fun m =>
      if m.id == modId then { m with isLocalized := some true } else m) }

/-- The `while (connectedTargets.size < connectionsPerSource && attempts <
maxAttempts)` loop of `connectModules`, recursing on the remaining attempt
budget (`fuel` starts at `maxAttempts = 2 * connectionsPerSource`). -/
def connectLoop (rng : ℕ → ℚ) (src : NodeState) (candidates preferred : List NodeState)
    (useLoc : Bool) (localizer : ℚ) (initialWeight : Option ℚ) (cps : ℕ) :
    ℕ → NeuralNet → List String → ℕ → NeuralNet × ℕ
  | 0, s, _, ri => (s, ri)
  | fuel + 1, s, connected, ri =>
    if connected.length ≥ cps then (s, ri)
    else
      let poolRi : List NodeState × ℕ :=
        if useLoc then
          let roll := rng ri * 100
          (if roll > localizer then preferred else candidates, ri + 1)
        else (candidates, ri)
      let pool := poolRi.1
      let ri1 := poolRi.2
      if pool.length = 0 then
        connectLoop rng src candidates preferred useLoc localizer initialWeight cps fuel s
          connected ri1
      else
        match floorIndex (rng ri1) pool.length with
        | none =>
          connectLoop rng src candidates preferred useLoc localizer initialWeight cps fuel s
            connected (ri1 + 1)
        | some i =>
          match pool.get? i with
          | none =>
            connectLoop rng src candidates preferred useLoc localizer initialWeight cps fuel s
              connected (ri1 + 1)
          | some tgt =>
            if connected.contains tgt.id then
              connectLoop rng src candidates preferred useLoc localizer initialWeight cps fuel
                s connected (ri1 + 1)
            else if tgt.id == src.id then
              connectLoop rng src candidates preferred useLoc localizer initialWeight cps fuel
                s connected (ri1 + 1)
            else
              let wri : ℚ × ℕ :=
                match initialWeight with
                | some iw =>
                  ((if src.neuronType = .EXCITATORY then iw else -iw), ri1 + 1)
                | none =>
                  ((if src.neuronType = .EXCITATORY then rng (ri1 + 1) * (1/2)
                    else -(rng (ri1 + 1) * (3/2))), ri1 + 2)
              let s' := s.addConnection
                { id := "c-" ++ src.id ++ "-" ++ tgt.id,
                  sourceId := src.id, targetId := tgt.id, weight := wri.1 }
              connectLoop rng src candidates preferred useLoc localizer initialWeight cps fuel
                s' (connected ++ [tgt.id]) wri.2

/-- `NeuralNet.connectModules`: replace-semantics cross-module wiring.
Clears prior edges between the pair, stores the link config, forces
localized mode (and an internal rewire) on a not-yet-localized brain target
when `localizer < 100`, then wires each source node to
`max 1 ⌊|targets| · coverage/100⌋` distinct non-self targets drawn from a
leak-weighted pool. -/
def NeuralNet.connectModules (rng : ℕ → ℚ) (angleOf : String → ℚ)
    (shuffle : List NodeState → List NodeState) (s : NeuralNet)
    (sourceId targetId : String) (srcSide tgtSide : ConnectionSide)
    (coverage localizer : ℚ) (ri : ℕ) : NeuralNet × ℕ :=
  let s0 := s.disconnectModules sourceId targetId
  let sourceNodes := s0.getNodesForSide sourceId srcSide
  let targetNodes := s0.getNodesForSide targetId tgtSide
  match s0.getModule targetId with
  | none => (s0, ri)
  | some targetMod =>
    if sourceNodes.length = 0 ∨ targetNodes.length = 0 then (s0, ri)
    else
      let finalCoverage := max 1 (min 100 coverage)
      let connectionsPerSource : ℕ :=
        max 1 (ratFloorNat ((targetNodes.length : ℚ) * (finalCoverage / 100)))
      let linkId := sourceId ++ "-" ++ targetId
      let cfgStored : ModuleConnectionConfig :=
        { sourceId := sourceId, targetId := targetId, coverage := finalCoverage,
          localizer := localizer, srcSide := srcSide, tgtSide := tgtSide }
      let s1 := { s0 with
        moduleConnections := alistSet s0.moduleConnections linkId cfgStored }
      let s2ri : NeuralNet × ℕ :=
        if targetMod.type = .BRAIN ∧ localizer < 100 then
          (if ¬ targetMod.isLocalized.getD false then
            NeuralNet.rewireInternalConnections rng shuffle
              (s1.setModuleLocalized targetId) targetId ri
          else (s1, ri))
        else (s1, ri)
      let s2 := s2ri.1
      let ri2 := s2ri.2
      let sourceMod := s2.getModule sourceId
      let initialWeight : Option ℚ :=
        match sourceMod with
        | some m => if m.type = .SUSTAINED_OUTPUT then some 1 else none
        | none => none
      let useLoc := localizer < 100
      (sourceNodes.enum.foldl (fun (acc : NeuralNet × ℕ) p =>
        let src := p.2
        let srcIndex := p.1
        let candidates := targetNodes
        let preferred : List NodeState :=
          if useLoc then
            match sourceMod with
            | some sm =>
              let srcLoc := relLocation angleOf src sm srcIndex sourceNodes.length
              let safeCoverage := max finalCoverage 5
              let threshold := safeCoverage / 100 / 2
              let bothCircular := sm.type = .BRAIN ∧ targetMod.type = .BRAIN
              let pc := (targetNodes.enum.filter (fun q =>
                relDist srcLoc
                  (relLocation angleOf q.2 targetMod q.1 targetNodes.length)
                  bothCircular ≤ threshold)).map (·.2)
              if pc.length = 0 then targetNodes else pc
            | none => targetNodes
          else []
        connectLoop rng src candidates preferred useLoc localizer initialWeight
          connectionsPerSource (2 * connectionsPerSource) acc.1 [] acc.2) (s2, ri2))

/-! ### `step()` input aggregation (lines 1222–1334 of `NeuralNet.ts`)

The aggregation writes each connection's `signalStrength` for the
visualizer; that field is never read back by the simulation, and the model
of the sum omits the write-back. -/

/-- The `rawSignal` computed for one incoming connection (lines 1231–1281):
`none` when the source node is missing (the connection is skipped
entirely), otherwise the possibly sustained-gated product
`sourceActivation × weight`. -/
def NeuralNet.rawSignalOf (s : NeuralNet) (node : NodeState) (conn : Connection) :
    Option ℚ :=
  match s.getNode conn.sourceId with
  | none => none
  | some sourceNode =>
    let sourceModId := alistGet s.nodeModuleMap conn.sourceId
    some (
      match sourceModId with
      | some smid =>
        if sourceNode.activationType = ActivationType.SUSTAINED then
          let isSourceSustainedOutput : Bool :=
            match s.getModule smid with
            | some m => m.type = ModuleType.SUSTAINED_OUTPUT
            | none => false
          if isSourceSustainedOutput then
            (if node.activationType = ActivationType.SUSTAINED then
              (if sourceNode.isFiring then 1 * conn.weight else 0)
            else
              (if sourceNode.potential > conn.weight then
                (if sourceNode.isFiring then 1 * conn.weight else 0)
              else 0))
          else sourceNode.activation * conn.weight
        else sourceNode.activation * conn.weight
      | none => sourceNode.activation * conn.weight)

/-- The `isExternalBrain` flag (lines 1283–1298): the source lives in a
different `BRAIN` module and the target's module is not
`SUSTAINED_OUTPUT` (a missing target module id looks up the empty key,
i.e. no module). -/
def NeuralNet.isExternalBrain (s : NeuralNet) (node : NodeState) (conn : Connection) :
    Bool :=
  let sourceModId := alistGet s.nodeModuleMap conn.sourceId
  let targetModId := alistGet s.nodeModuleMap node.id
  match sourceModId with
  | none => false
  | some smid =>
    if some smid == targetModId then false
    else
      match s.getModule smid with
      | none => false
      | some sm =>
        let targetMod :=
          match targetModId with
          | some t => s.getModule t
          | none => none
        let isTargetSusOut :=
          match targetMod with
          | some tm => tm.type = .SUSTAINED_OUTPUT
          | none => false
        sm.type = ModuleType.BRAIN ∧ isTargetSusOut = false

/-- Append a value to the entry of a keyed group list, creating the entry
at the end if absent — the JS `Map<string, {conns}>` used by the
aggregation. -/
def pushVal : List (String × List ℚ) → String → ℚ → List (String × List ℚ)
  | [], k, v => [(k, [v])]
  | (k', vs) :: rest, k, v =>
    if k' == k then (k', vs ++ [v]) :: rest else (k', vs) :: pushVal rest k v

/-- Phase A of the aggregation: route each connection's raw signal either
into the running sum or into the per-source-brain-module group map. -/
def gatherStep (s : NeuralNet) (node : NodeState)
    (acc : ℚ × List (String × List ℚ)) (conn : Connection) :
    ℚ × List (String × List ℚ) :=
  match s.rawSignalOf node conn with
  | none => acc
  | some raw =>
    if s.isExternalBrain node conn then
      match alistGet s.nodeModuleMap conn.sourceId with
      | some smid => (acc.1, pushVal acc.2 smid raw)
      | none => acc
    else (acc.1 + raw, acc.2)

/-- The input sum `step()` assigns to a non-sensor node: phase A routes
signals, phase B adds each group's signals scaled by `1 / count`. -/
def NeuralNet.computeInputSum (s : NeuralNet) (node : NodeState) : ℚ :=
  let res := (s.incoming node.id).foldl (gatherStep s node) (0, [])
  res.1 + (res.2.map (fun g => (g.2.map (fun r => r * (1 / (g.2.length : ℚ)))).sum)).sum

/-- The specification's description of the same sum: every edge contributes
its raw signal, divided — for edges whose source lies in a different brain
module (and whose target module is not a sustained actuator) — by the
number of such grouped edges from that module. -/
def NeuralNet.specInputSum (s : NeuralNet) (node : NodeState) : ℚ :=
  let inc := s.incoming node.id
  let extCount := fun (mid : String) =>
    (inc.filter (fun c =>
      (s.rawSignalOf node c).isSome ∧ s.isExternalBrain node c = true ∧
        alistGet s.nodeModuleMap c.sourceId == some mid)).length
  (inc.map (fun c =>
    match s.rawSignalOf node c with
    | none => 0
    | some raw =>
      if s.isExternalBrain node c then
        match alistGet s.nodeModuleMap c.sourceId with
        | some smid => raw * (1 / (extCount smid : ℚ))
        | none => 0
      else raw)).sum

/-- The contribution a connection makes directly to the running sum in
phase A (its raw signal unless it is routed into the group map or its
source is missing). -/
def NeuralNet.plainSignal (s : NeuralNet) (node : NodeState) (conn : Connection) : ℚ :=
  match s.rawSignalOf node conn with
  | none => 0
  | some raw => if s.isExternalBrain node conn then 0 else raw

/-- The keyed pair a connection routes into the group map, when it does. -/
def NeuralNet.extPair (s : NeuralNet) (node : NodeState) (conn : Connection) :
    Option (String × ℚ) :=
  match s.rawSignalOf node conn with
  | none => none
  | some raw =>
    if s.isExternalBrain node conn then
      match alistGet s.nodeModuleMap conn.sourceId with
      | some smid => some (smid, raw)
      | none => none
    else none

/-- The keyed pairs that phase A routes into the group map (source module
id, raw signal), in connection order. -/
def NeuralNet.extPairs (s : NeuralNet) (node : NodeState) : List (String × ℚ) :=
  (s.incoming node.id).filterMap (s.extPair node)

/-- The group map built by folding `pushVal` over keyed pairs (the JS
`Map` of phase A). -/
def buildGroups (l : List (String × ℚ)) : List (String × List ℚ) :=
  l.foldl (fun acc p => pushVal acc p.1 p.2) []

/-- First-occurrence-ordered distinct keys of a keyed list (the iteration
order of the JS group map). -/
def groupKeys : List (String × ℚ) → List String
  | [] => []
  | p :: t => p.1 :: groupKeys (t.filter (fun q => ¬ q.1 == p.1))
termination_by l => l.length
decreasing_by
  simp only [List.length_cons]
  exact Nat.lt_succ_of_le (List.length_filter_le _ _)

/-- The canonical form of the phase-A group map: first-occurrence-ordered
keys, each with its values in encounter order. -/
def canonGroups (l : List (String × ℚ)) : List (String × List ℚ) :=
  (groupKeys l).map (fun k => (k, (l.filter (fun q => q.1 == k)).map (fun q => q.2)))

/-! ### The per-tick plasticity pass (lines 1368–1497 of `NeuralNet.ts`) -/

/-- One iteration of the Hebbian loop, for the internal connection at
position `i` of the connection list (the JS loop iterates over the object
references captured by the initial filter; positions are stable because
removals happen only after the loop). -/
def hebbStep (nodes : List NodeState) (m : ModuleConfig) (moduleId : String) (rate pt : ℚ)
    (st : List Connection × List String) (i : ℕ) : List Connection × List String :=
  let conns := st.1
  let rem := st.2
  match conns.get? i with
  | none => st
  | some conn =>
    match nodes.find? (fun n => n.id == conn.sourceId),
        nodes.find? (fun n => n.id == conn.targetId) with
    | some src, some tgt =>
      let boost := rate * src.activation * tgt.activation
      let newW :=
        if src.neuronType = .EXCITATORY then conn.weight + boost
        else if tgt.averageFiringRate > 1/10 then conn.weight - 1/1000
        else conn.weight + 1/1000
      let conns1 := conns.set i { conn with weight := newW }
      let targetSum :=
        match m.sustainability with
        | some su => if su.targetSum = 0 then 3 else su.targetSum
        | none => 3
      let isIntIncoming := fun (c : Connection) =>
        c.targetId == tgt.id ∧ strBegins c.sourceId moduleId
      let internalIncoming := conns1.filter isIntIncoming
      let currentTotal := (internalIncoming.map (fun c => |c.weight|)).sum
      if currentTotal > targetSum then
        (if internalIncoming.length > 0 then
          let tax := boost / (internalIncoming.length : ℚ)
          let conns2 := conns1.map (fun c =>
            if isIntIncoming c then { c with weight := c.weight - tax } else c)
          let rem2 := rem ++
            ((conns2.filter (fun c => isIntIncoming c ∧ |c.weight| < pt)).map (·.id))
          let rem3 :=
            match conns2.get? i with
            | some c2 => if |c2.weight| < pt then rem2 ++ [c2.id] else rem2
            | none => rem2
          (conns2, rem3)
        else
          (conns1, if |newW| < pt then rem ++ [conn.id] else rem))
      else
        (conns1, if |newW| < pt then rem ++ [conn.id] else rem)
    | _, _ => st

/-- `getModuleNodes`: the module's nodes sorted by id (the source uses a
numeric-aware `localeCompare`; the sort order only permutes which node a
given random regrowth index selects, which the `rng` oracle absorbs). -/
def NeuralNet.getModuleNodes (s : NeuralNet) (moduleId : String) : List NodeState :=
  (s.nodes.filter (fun n => strBegins n.id (moduleId ++ "-"))).mergeSort
    (fun a b => a.id ≤ b.id)

/-- The `while (tgt.id === src.id)` redraw loop of regrowth, bounded by
`fuel` (the source redraws until the ids differ; with genuine uniform
draws and at least two nodes this terminates almost surely). -/
def regrowTarget (rng : ℕ → ℚ) (nodes : List NodeState) (srcId : String) :
    ℕ → ℕ → Option NodeState × ℕ
  | 0, ri => (none, ri)
  | fuel + 1, ri =>
    match floorIndex (rng ri) nodes.length with
    | none => (none, ri + 1)
    | some i =>
      match nodes.get? i with
      | none => (none, ri + 1)
      | some t =>
        if t.id == srcId then regrowTarget rng nodes srcId fuel (ri + 1)
        else (some t, ri + 1)

/-- The regrowth block: `⌊rate⌋` new random intra-module edges plus a
Bernoulli trial on the fractional remainder, each with a small random
initial weight in `[-0.2, 0.2)`. -/
def regrow (rng : ℕ → ℚ) (regrowFuel dateNow : ℕ) (moduleId : String) (rr : ℚ)
    (s : NeuralNet) (ri : ℕ) : NeuralNet × ℕ :=
  let count := ratFloorNat rr
  let chance := rr - (count : ℚ)
  let toAdd := count + (if rng ri < chance then 1 else 0)
  let ri1 := ri + 1
  let moduleNodes := s.getModuleNodes moduleId
  if moduleNodes.length > 1 then
    (List.range toAdd).foldl (fun (acc : NeuralNet × ℕ) _ =>
      let sAcc := acc.1
      let riAcc := acc.2
      match floorIndex (rng riAcc) moduleNodes.length with
      | none => (sAcc, riAcc + 1)
      | some si =>
        match moduleNodes.get? si with
        | none => (sAcc, riAcc + 1)
        | some src =>
          let tri := regrowTarget rng moduleNodes src.id regrowFuel (riAcc + 1)
          match tri.1 with
          | none => (sAcc, tri.2)
          | some tgt =>
            let w := (rng tri.2 - 1/2) * (2/5)
            let s' := sAcc.addConnection
              { id := "c-" ++ src.id ++ "-" ++ tgt.id ++ "-" ++ toString dateNow ++ "-" ++
                  toString (rng (tri.2 + 1)),
                sourceId := src.id, targetId := tgt.id, weight := w }
            (s', tri.2 + 2)) (s, ri1)
  else (s, ri1)

/-- The plasticity pass for one module: Hebbian / homeostatic weight
updates with the subtractive-normalization tax, pruning of weak edges, and
regrowth — a no-op unless the module is a learning `BRAIN`. -/
def NeuralNet.hebbianModulePass (rng : ℕ → ℚ) (regrowFuel dateNow : ℕ) (s : NeuralNet)
    (m : ModuleConfig) (ri : ℕ) : NeuralNet × ℕ :=
  if m.type = .BRAIN ∧ m.hebbianLearning.getD false then
    let rate := qOr m.learningRate (1/100)
    let moduleId := m.id
    let internalIdx := (List.range s.connections.length).filter (fun i =>
      match s.connections.get? i with
      | some c => strBegins c.sourceId moduleId ∧ strBegins c.targetId moduleId
      | none => false)
    let pt := m.pruningThreshold.getD (1/20)
    let res := internalIdx.foldl (hebbStep s.nodes m moduleId rate pt)
      (s.connections, [])
    let s1 :=
      if res.2.length > 0 then
        { s with connections := res.1.filter (fun c => ¬ res.2.contains c.id) }
      else { s with connections := res.1 }
    let rr := qOr m.regrowthRate 0
    if rr > 0 then regrow rng regrowFuel dateNow moduleId rr s1 ri
    else (s1, ri)
  else (s, ri)

/-- The whole per-tick plasticity pass: the module loop of `step()`
(lines 1368–1497). -/
def NeuralNet.plasticityPass (rng : ℕ → ℚ) (regrowFuel dateNow : ℕ) (s : NeuralNet)
    (ri : ℕ) : NeuralNet × ℕ :=
  s.modules.foldl (fun acc m =>
    NeuralNet.hebbianModulePass rng regrowFuel dateNow acc.1 m acc.2) (s, ri)

/-! ### Concrete states used by counterexamples and witnesses -/

/-- `true` when the node id does not resolve (through `nodeModuleMap` and
`modules`) to a `SUSTAINED_OUTPUT` module — exactly the configurations in
which `normalizeSustainedWeights` is a no-op. -/
def notSustainedTarget (s : NeuralNet) (nid : String) : Bool :=
  match alistGet s.nodeModuleMap nid with
  | none => true
  | some mid =>
    match s.getModule mid with
    | none => true
    | some mm => mm.type ≠ ModuleType.SUSTAINED_OUTPUT

/-- The spec's Dale property for an engine-created edge: some node of the
net carries the edge's source id, and the weight's sign matches that
node's neuron type. -/
def daleSign (s : NeuralNet) (c : Connection) : Prop :=
  ∃ src ∈ s.nodes, c.sourceId = src.id ∧
    (if src.neuronType = NeuronType.EXCITATORY then 0 < c.weight else c.weight < 0)

/-- The invariant the wiring folds preserve relative to the pre-call net
`t`: nodes unchanged, no node resolves to a sustained-output module, and
every connection is either pre-existing or Dale-consistent. -/
def netInv (t s : NeuralNet) : Prop :=
  s.nodes = t.nodes ∧ (∀ nid, notSustainedTarget s nid = true) ∧
    ∀ c ∈ s.connections, c ∈ t.connections ∨ daleSign t c

/-- A brain module `b` holding one inhibitory node, wired by
`connectModules` into the sustained-actuator module `so` below. -/
def cxC3brainMod : ModuleConfig :=
  { id := "b", type := .BRAIN, x := 0, y := 0, nodeCount := 1 }

/-- The sustained-actuator module of the Dale counterexample (gain left at
its default `3.0`). -/
def cxC3susMod : ModuleConfig :=
  { id := "so", type := .SUSTAINED_OUTPUT, x := 0, y := 0, nodeCount := 1 }

/-- The inhibitory brain node `b-0`. -/
def cxC3srcNode : NodeState :=
  BrainNode.init
    { id := "b-0", type := .HIDDEN, x := 0, y := 0, neuronType := some .INHIBITORY }

/-- The sustained actuator node `so-0`. -/
def cxC3tgtNode : NodeState :=
  SustainedOutputNode.init
    { id := "so-0", type := .OUTPUT, x := 0, y := 0, activationType := some .SUSTAINED }

/-- The net on which `connectModules` creates a positive-weight edge out of
an inhibitory source. -/
def cxC3net : NeuralNet :=
  { nodes := [cxC3srcNode, cxC3tgtNode]
    connections := []
    modules := [cxC3brainMod, cxC3susMod]
    moduleConnections := []
    nodeModuleMap := [("b-0", "b"), ("so-0", "so")]
    tickCount := 0 }

/-- A learning brain module `m` for the tax counterexample. -/
def cxC3taxMod : ModuleConfig :=
  { id := "m", type := .BRAIN, x := 0, y := 0, nodeCount := 3,
    hebbianLearning := some true, learningRate := some 1,
    pruningThreshold := some (1/100) }

/-- Excitatory brain node with a given id and activation. -/
def mkExcNode (nid : String) (act : ℚ) : NodeState :=
  { BrainNode.init { id := nid, type := .HIDDEN, x := 0, y := 0 } with activation := act }

/-- The net on which the synaptic-budget tax drives an excitatory-source
weight negative: `m-0 → m-1` carries weight `3.5` (over the
`targetSum = 3` budget once boosted), `m-2 → m-1` carries a small positive
weight that the tax pushes below zero. -/
def cxC3taxNet : NeuralNet :=
  { nodes := [mkExcNode "m-0" 1, mkExcNode "m-1" 1, mkExcNode "m-2" 0]
    connections :=
      [ { id := "c1", sourceId := "m-0", targetId := "m-1", weight := 7/2 },
        { id := "c2", sourceId := "m-2", targetId := "m-1", weight := 1/20 } ]
    modules := [cxC3taxMod]
    moduleConnections := []
    nodeModuleMap := [("m-0", "m"), ("m-1", "m"), ("m-2", "m")]
    tickCount := 0 }

/-- The stale link config of the degenerate-wiring counterexample: module
`a` was shrunk to zero nodes after `connectModules(b, a)` stored this
entry (`updateModule` keeps `moduleConnections` when regenerating). -/
def cxC8cfg : ModuleConnectionConfig :=
  { sourceId := "b", targetId := "a", coverage := 50, localizer := 0,
    srcSide := .ALL, tgtSide := .ALL }

/-- The net for the degenerate-wiring counterexample: `a` is an (empty)
brain module, `b` has one node, and a stale `b-a` link config is stored. -/
def cxC8net : NeuralNet :=
  { nodes := [mkExcNode "b-0" 0]
    connections := []
    modules :=
      [ { id := "a", type := .BRAIN, x := 0, y := 0, nodeCount := 0 },
        { id := "b", type := .BRAIN, x := 0, y := 0, nodeCount := 1 } ]
    moduleConnections := [("b-a", cxC8cfg)]
    nodeModuleMap := [("b-0", "b")]
    tickCount := 0 }

/-- Inhibitory brain node with a given id (zero activation and firing
rate). -/
def mkInhNode (nid : String) : NodeState :=
  BrainNode.init
    { id := nid, type := .HIDDEN, x := 0, y := 0, neuronType := some .INHIBITORY }

/-- The silent-module counterexample for pruning idempotence: one internal
edge with an inhibitory source; every activation and moving-average firing
rate is zero, yet the homeostatic rule moves the weight by `+0.001` on
every pass. -/
def cxC9net : NeuralNet :=
  { nodes := [mkInhNode "m-0", mkExcNode "m-1" 0]
    connections := [{ id := "c1", sourceId := "m-0", targetId := "m-1", weight := -1/2 }]
    modules :=
      [ { id := "m", type := .BRAIN, x := 0, y := 0, nodeCount := 2,
          hebbianLearning := some true } ]
    moduleConnections := []
    nodeModuleMap := [("m-0", "m"), ("m-1", "m")]
    tickCount := 0 }

/-- The learning BRAIN module config shared by the C9 witness net. -/
def wC9mod : ModuleConfig :=
  { id := "m", type := .BRAIN, x := 0, y := 0, nodeCount := 2,
    hebbianLearning := some true }

/-- The silent all-excitatory learning module of the C9 witness: one weak
edge (pruned by the initial threshold check) and one established edge. -/
def wC9net : NeuralNet :=
  { nodes := [mkExcNode "m-0" 0, mkExcNode "m-1" 0]
    connections :=
      [ { id := "c1", sourceId := "m-0", targetId := "m-1", weight := 1/100 },
        { id := "c2", sourceId := "m-1", targetId := "m-0", weight := 1/2 } ]
    modules := [wC9mod]
    moduleConnections := []
    nodeModuleMap := [("m-0", "m"), ("m-1", "m")]
    tickCount := 0 }

/-- The sustained-actuator module (gain `4`) of the renormalization
witness. -/
def wC6susMod : ModuleConfig :=
  { id := "so", type := .SUSTAINED_OUTPUT, x := 0, y := 0, nodeCount := 1, gain := some 4 }

/-- A sustained-actuator module with two incoming edges already present;
used to witness the immediate renormalization of `addConnection`. -/
def wC6net : NeuralNet :=
  { nodes := [mkExcNode "b-0" 0, mkExcNode "b-1" 0, cxC3tgtNode]
    connections := [{ id := "c0", sourceId := "b-0", targetId := "so-0", weight := 3 }]
    modules :=
      [ { id := "b", type := .BRAIN, x := 0, y := 0, nodeCount := 2 }, wC6susMod ]
    moduleConnections := []
    nodeModuleMap := [("b-0", "b"), ("b-1", "b"), ("so-0", "so")]
    tickCount := 0 }

/-- The second edge wired into the sustained actuator of `wC6net`. -/
def wC6cfg : ConnectionConfig :=
  { id := "c9", sourceId := "b-1", targetId := "so-0", weight := -1/4 }

/-- A two-module net whose target node receives one internal edge and two
external brain edges from the same module; used to witness the grouped
normalization equation. -/
def wC7net : NeuralNet :=
  { nodes :=
      [ { mkExcNode "p-0" 1 with isFiring := true },
        { mkExcNode "p-1" 1 with isFiring := true },
        mkExcNode "q-0" 0, mkExcNode "q-1" 1 ]
    connections :=
      [ { id := "d1", sourceId := "p-0", targetId := "q-0", weight := 1 },
        { id := "d2", sourceId := "p-1", targetId := "q-0", weight := 2 },
        { id := "d3", sourceId := "q-1", targetId := "q-0", weight := 5 } ]
    modules :=
      [ { id := "p", type := .BRAIN, x := 0, y := 0, nodeCount := 2 },
        { id := "q", type := .BRAIN, x := 0, y := 0, nodeCount := 2 } ]
    moduleConnections := []
    nodeModuleMap := [("p-0", "p"), ("p-1", "p"), ("q-0", "q"), ("q-1", "q")]
    tickCount := 0 }

/-- The net for the localized-wiring frame-effect claim: brain module `a`
(one node) is connected into brain module `b` (one node, not localized)
whose single internal self-loop carries a weight no wiring rule would
generate. -/
def wC10net : NeuralNet :=
  { nodes := [mkExcNode "a-0" 0, mkExcNode "b-0" 0]
    connections := [{ id := "old", sourceId := "b-0", targetId := "b-0", weight := 7 }]
    modules :=
      [ { id := "a", type := .BRAIN, x := 0, y := 0, nodeCount := 1 },
        { id := "b", type := .BRAIN, x := 0, y := 0, nodeCount := 1 } ]
    moduleConnections := []
    nodeModuleMap := [("a-0", "a"), ("b-0", "b")]
    tickCount := 0 }

/-- The constant half stream standing for `Math.random()` draws in
witnesses. -/
def halfRng : ℕ → ℚ := fun _ => 1/2

/-- A sustained actuator whose `refractoryPeriod` field has been raised to
`2`: the `SustainedOutputNode` constructor ignores the configured period
(it stays at the `BaseNode` default `0`), but `updateModule`
(`NeuralNet.ts` lines 379–383) writes a new `refractoryPeriod` directly
onto every node of a module, sustained actuators included. -/
def cxC2node : NodeState := { scenarioSustainedNode with refractoryPeriod := 2 }

/-- The frame invariant of the localization side effect: modules and stored
link configs are fixed, and every connection either does not have both
endpoints in module `B` (per the fixed node-module map) or carries a
freshly generated `c-`-prefixed id. -/
def localizeFrame (B : String) (map : List (String × String)) (M : List ModuleConfig)
    (MC : List (String × ModuleConnectionConfig)) (cur : NeuralNet) : Prop :=
  cur.modules = M ∧ cur.moduleConnections = MC ∧
  ∀ c ∈ cur.connections,
    ¬ (alistGet map c.sourceId = some B ∧ alistGet map c.targetId = some B) ∨
      strBegins c.id "c-" = true

/-! ## Theorems

First the helper lemmas about the node state machines, then the claim
theorems. -/

theorem integrateClamp_nonneg (n : NodeState) (i : ℚ) (h : 0 ≤ n.maxPotential) :
    0 ≤ integrateClamp n i := by
  simp only [integrateClamp]
  split_ifs <;> linarith

theorem integrateClamp_le (n : NodeState) (i : ℚ) :
    integrateClamp n i ≤ n.maxPotential := by
  simp only [integrateClamp]
  split_ifs <;> linarith

theorem effectiveCT_nonneg (n : NodeState) (h1 : 0 ≤ n.threshold)
    (h2 : 0 ≤ n.currentThreshold) : 0 ≤ effectiveCT n := by
  unfold effectiveCT
  split_ifs <;> linarith

theorem susNePulse : ActivationType.SUSTAINED ≠ ActivationType.PULSE := by decide

theorem brain_period (n : NodeState) (i : ℚ) (j : Bool) :
    (BrainNode.update n i j).refractoryPeriod = n.refractoryPeriod := by
  unfold BrainNode.update
  split
  · rfl
  · split <;> rfl

theorem brain_fire_timer (n : NodeState) (i : ℚ) (j : Bool) :
    (BrainNode.update n i j).isFiring = true →
    (BrainNode.update n i j).refractoryTimer =
      n.refractoryPeriod + (if j then 1 else 0) := by
  unfold BrainNode.update
  split
  · intro h; simp at h
  · split <;> intro h
    · rfl
    · simp at h

theorem brain_gate (n : NodeState) (i : ℚ) (j : Bool) (h : n.refractoryTimer > 0) :
    (BrainNode.update n i j).isFiring = false ∧
    (BrainNode.update n i j).refractoryTimer = n.refractoryTimer - 1 := by
  simp [BrainNode.update, h]

theorem brain_run_period (n : NodeState) (inp : ℕ → ℚ) (jit : ℕ → Bool) (t : ℕ) :
    (BrainNode.run n inp jit t).refractoryPeriod = n.refractoryPeriod := by
  induction t with
  | zero => rfl
  | succ t ih => rw [BrainNode.run, brain_period, ih]

theorem brain_run_add (n : NodeState) (inp : ℕ → ℚ) (jit : ℕ → Bool) (a b : ℕ) :
    BrainNode.run n inp jit (a + b) =
    BrainNode.run (BrainNode.run n inp jit a)
      (fun t => inp (a + t)) (fun t => jit (a + t)) b := by
  induction b with
  | zero => rfl
  | succ b ih => rw [← Nat.add_assoc, BrainNode.run, ih]; rfl

theorem brain_gate_run :
    ∀ (d : ℕ), 1 ≤ d → ∀ (inp : ℕ → ℚ) (jit : ℕ → Bool) (m : NodeState),
      d ≤ m.refractoryTimer →
      (BrainNode.run m inp jit d).isFiring = false ∧
      (BrainNode.run m inp jit d).refractoryTimer = m.refractoryTimer - d := by
  intro d
  induction d with
  | zero => omega
  | succ d ih =>
    intro _ inp jit m h2
    have hm : m.refractoryTimer > 0 := by omega
    have hg := brain_gate m (inp 0) (jit 0) hm
    rcases Nat.eq_zero_or_pos d with hd | hd
    · subst hd
      exact ⟨hg.1, hg.2⟩
    · have hpeel : BrainNode.run m inp jit (d + 1) =
          BrainNode.run (BrainNode.update m (inp 0) (jit 0))
            (fun t => inp (1 + t)) (fun t => jit (1 + t)) d := by
        have := brain_run_add m inp jit 1 d
        rw [Nat.add_comm 1 d] at this
        exact this
      rw [hpeel]
      have hle : d ≤ (BrainNode.update m (inp 0) (jit 0)).refractoryTimer := by
        rw [hg.2]; omega
      have hih := ih hd (fun t => inp (1 + t)) (fun t => jit (1 + t))
        (BrainNode.update m (inp 0) (jit 0)) hle
      refine ⟨hih.1, ?_⟩
      rw [hih.2, hg.2]
      omega

theorem sus_update_fields (m : NodeState) (i : ℚ) :
    (SustainedOutputNode.update m i).threshold = m.threshold ∧
    (SustainedOutputNode.update m i).decay = m.decay ∧
    (SustainedOutputNode.update m i).maxPotential = m.maxPotential ∧
    (SustainedOutputNode.update m i).bias = m.bias ∧
    (SustainedOutputNode.update m i).refractoryTimer = m.refractoryTimer ∧
    (SustainedOutputNode.update m i).potential = integrateClamp m i := by
  unfold SustainedOutputNode.update
  split <;> exact ⟨rfl, rfl, rfl, rfl, rfl, rfl⟩

theorem sus_step (m : NodeState) (h1 : m.threshold = 1) (h2 : m.decay = 9/10)
    (h3 : m.maxPotential = 3) (h4 : m.bias = 0) (h5 : 0 ≤ m.potential) :
    (SustainedOutputNode.update m (3/2)).isFiring = true ∧
    1 ≤ integrateClamp m (3/2) := by
  have hic : 1 ≤ integrateClamp m (3/2) := by
    simp only [integrateClamp, h2, h3, h4]
    split_ifs <;> linarith
  refine ⟨?_, hic⟩
  have hfire : integrateClamp m (3/2) ≥ m.threshold := by rw [h1]; linarith
  simp only [SustainedOutputNode.update, hfire, if_true, ge_iff_le]

theorem sus_scn_inv (t : ℕ) :
    ((SustainedOutputNode.run scenarioSustainedNode (fun _ => 3/2) t).threshold = 1 ∧
     (SustainedOutputNode.run scenarioSustainedNode (fun _ => 3/2) t).decay = 9/10 ∧
     (SustainedOutputNode.run scenarioSustainedNode (fun _ => 3/2) t).maxPotential = 3 ∧
     (SustainedOutputNode.run scenarioSustainedNode (fun _ => 3/2) t).bias = 0 ∧
     (SustainedOutputNode.run scenarioSustainedNode (fun _ => 3/2) t).refractoryTimer = 0 ∧
     0 ≤ (SustainedOutputNode.run scenarioSustainedNode (fun _ => 3/2) t).potential) ∧
    (1 ≤ t →
      (SustainedOutputNode.run scenarioSustainedNode (fun _ => 3/2) t).isFiring = true ∧
      1 ≤ (SustainedOutputNode.run scenarioSustainedNode (fun _ => 3/2) t).potential) := by
  induction t with
  | zero =>
    refine ⟨?_, by omega⟩
    norm_num [SustainedOutputNode.run, scenarioSustainedNode, SustainedOutputNode.init,
      BaseNode.init]
  | succ t ih =>
    obtain ⟨⟨f1, f2, f3, f4, f5, f6⟩, _⟩ := ih
    set m := SustainedOutputNode.run scenarioSustainedNode (fun _ => 3/2) t with hm
    have hrun : SustainedOutputNode.run scenarioSustainedNode (fun _ => 3/2) (t + 1) =
        SustainedOutputNode.update m (3/2) := rfl
    have hstep := sus_step m f1 f2 f3 f4 f6
    have hf := sus_update_fields m (3/2)
    rw [hrun]
    refine ⟨⟨?_, ?_, ?_, ?_, ?_, ?_⟩, fun _ => ⟨hstep.1, ?_⟩⟩
    · rw [hf.1, f1]
    · rw [hf.2.1, f2]
    · rw [hf.2.2.1, f3]
    · rw [hf.2.2.2.1, f4]
    · rw [hf.2.2.2.2.1, f5]
    · rw [hf.2.2.2.2.2]; linarith [hstep.2]
    · rw [hf.2.2.2.2.2]; exact hstep.2

theorem sus_no_reset (m : NodeState) (i : ℚ) :
    (SustainedOutputNode.update m i).isFiring = true →
    (SustainedOutputNode.update m i).potential ≥ m.threshold := by
  unfold SustainedOutputNode.update
  split_ifs with hc
  · intro _; simpa using hc
  · intro h; simp at h

set_option maxHeartbeats 1000000 in
theorem classic_scenario (jit : ℕ → Bool) :
    (Node.run scenarioClassicSustained (fun _ => 3/2) jit 1).isFiring = true ∧
    (∀ t, 2 ≤ t → t ≤ 3 + (if jit 0 then 1 else 0) →
      (Node.run scenarioClassicSustained (fun _ => 3/2) jit t).isFiring = false ∧
      1 ≤ (Node.run scenarioClassicSustained (fun _ => 3/2) jit t).potential) ∧
    (∀ t, 1 ≤ t → t ≤ 2 + (if jit 0 then 1 else 0) →
      0 < (Node.run scenarioClassicSustained (fun _ => 3/2) jit t).refractoryTimer) ∧
    (Node.run scenarioClassicSustained (fun _ => 3/2) jit
      (3 + (if jit 0 then 1 else 0))).refractoryTimer = 0 ∧
    (Node.run scenarioClassicSustained (fun _ => 3/2) jit
      (4 + (if jit 0 then 1 else 0))).isFiring = true := by
  cases h0 : jit 0
  case false =>
    have hb : (if (false = true) then (1:ℕ) else 0) = 0 := rfl
    rw [hb]
    refine ⟨?_, fun t ht1 ht2 => ?_, fun t ht1 ht2 => ?_, ?_, ?_⟩
    · norm_num [Node.run, Node.update, scenarioClassicSustained, Node.init, BaseNode.init,
        integrateClamp, effectiveCTClassic, susNePulse, h0]
    · norm_num at ht2
      interval_cases t <;>
        norm_num [Node.run, Node.update, scenarioClassicSustained, Node.init, BaseNode.init,
          integrateClamp, effectiveCTClassic, susNePulse, h0]
    · norm_num at ht2
      interval_cases t <;>
        norm_num [Node.run, Node.update, scenarioClassicSustained, Node.init, BaseNode.init,
          integrateClamp, effectiveCTClassic, susNePulse, h0]
    · norm_num [Node.run, Node.update, scenarioClassicSustained, Node.init, BaseNode.init,
        integrateClamp, effectiveCTClassic, susNePulse, h0]
    · norm_num [Node.run, Node.update, scenarioClassicSustained, Node.init, BaseNode.init,
        integrateClamp, effectiveCTClassic, susNePulse, h0]
  case true =>
    have hb : (if (true = true) then (1:ℕ) else 0) = 1 := rfl
    rw [hb]
    refine ⟨?_, fun t ht1 ht2 => ?_, fun t ht1 ht2 => ?_, ?_, ?_⟩
    · norm_num [Node.run, Node.update, scenarioClassicSustained, Node.init, BaseNode.init,
        integrateClamp, effectiveCTClassic, susNePulse, h0]
    · norm_num at ht2
      interval_cases t <;>
        norm_num [Node.run, Node.update, scenarioClassicSustained, Node.init, BaseNode.init,
          integrateClamp, effectiveCTClassic, susNePulse, h0]
    · norm_num at ht2
      interval_cases t <;>
        norm_num [Node.run, Node.update, scenarioClassicSustained, Node.init, BaseNode.init,
          integrateClamp, effectiveCTClassic, susNePulse, h0]
    · norm_num [Node.run, Node.update, scenarioClassicSustained, Node.init, BaseNode.init,
        integrateClamp, effectiveCTClassic, susNePulse, h0]
    · norm_num [Node.run, Node.update, scenarioClassicSustained, Node.init, BaseNode.init,
        integrateClamp, effectiveCTClassic, susNePulse, h0]

/-! ### Claims C1, C2, C4, C5 -/

/-- C1 (counterexample): the claim "0 ≤ potential ≤ maxPotential after every
setInput() call" fails: `setInput` writes its raw argument into `potential`
with no clamping, so driving the sensor with `-1` leaves `potential = -1 <
0` (while `maxPotential = 3`). -/
theorem C1_counterexample :
    (InputNode.setInput scenarioSensorNode (-1)).potential = -1 ∧
    (InputNode.setInput scenarioSensorNode (-1)).maxPotential = 3 ∧
    ¬ (0 ≤ (InputNode.setInput scenarioSensorNode (-1)).potential) := by
  norm_num [InputNode.setInput, scenarioSensorNode, InputNode.init, BaseNode.init]

/-- C1 (amended): every node-class `update` preserves
`0 ≤ potential ≤ maxPotential` (given nonnegative threshold parameters for
brain nodes, and — for sensor generator modes, which write the raw
generator value — a cap of at least `1`); `setInput` establishes the
invariant exactly when its raw argument already lies in
`[0, maxPotential]`. -/
theorem C1_amended :
    (∀ (n : NodeState) (i : ℚ) (j : Bool),
      0 ≤ n.potential → n.potential ≤ n.maxPotential → 0 ≤ n.threshold →
      0 ≤ n.currentThreshold → 0 ≤ n.maxPotential →
      0 ≤ (BrainNode.update n i j).potential ∧
        (BrainNode.update n i j).potential ≤ (BrainNode.update n i j).maxPotential) ∧
    (∀ (n : NodeState) (i : ℚ), 0 ≤ n.maxPotential →
      0 ≤ (OutputNode.update n i).potential ∧
        (OutputNode.update n i).potential ≤ (OutputNode.update n i).maxPotential) ∧
    (∀ (n : NodeState) (i : ℚ), 0 ≤ n.maxPotential →
      0 ≤ (SustainedOutputNode.update n i).potential ∧
        (SustainedOutputNode.update n i).potential ≤
          (SustainedOutputNode.update n i).maxPotential) ∧
    (∀ (n : NodeState) (sv r1 r2 : ℚ),
      (n.inputType = InputType.PULSE → 0 ≤ n.maxPotential →
        0 ≤ (InputNode.update n sv r1 r2).potential ∧
          (InputNode.update n sv r1 r2).potential ≤
            (InputNode.update n sv r1 r2).maxPotential) ∧
      (n.inputType = InputType.SIN → -1 ≤ sv → sv ≤ 1 → 1 ≤ n.maxPotential →
        0 ≤ (InputNode.update n sv r1 r2).potential ∧
          (InputNode.update n sv r1 r2).potential ≤
            (InputNode.update n sv r1 r2).maxPotential) ∧
      (n.inputType = InputType.NOISE → 0 ≤ r2 → r2 ≤ 1 → 1 ≤ n.maxPotential →
        0 ≤ (InputNode.update n sv r1 r2).potential ∧
          (InputNode.update n sv r1 r2).potential ≤
            (InputNode.update n sv r1 r2).maxPotential)) ∧
    (∀ (n : NodeState) (v : ℚ), 0 ≤ v → v ≤ n.maxPotential →
      (0 ≤ (InputNode.setInput n v).potential ∧
        (InputNode.setInput n v).potential ≤ (InputNode.setInput n v).maxPotential) ∧
      (0 ≤ (BaseNode.setInput n v).potential ∧
        (BaseNode.setInput n v).potential ≤ (BaseNode.setInput n v).maxPotential)) := by
  refine ⟨?_, ?_, ?_, ?_, ?_⟩
  · intro n i j hp hpm hth hcth hmax
    have h1 := integrateClamp_le n i
    have h2 := effectiveCT_nonneg n hth hcth
    have h3 := integrateClamp_nonneg n i hmax
    unfold BrainNode.update
    split_ifs with h0 hge hj
    all_goals (try dsimp only)
    · exact ⟨hp, hpm⟩
    · exact ⟨by linarith, by linarith⟩
    · exact ⟨by linarith, by linarith⟩
    · exact ⟨by linarith, by linarith⟩
  · intro n i hmax
    unfold OutputNode.update
    split_ifs <;> (try dsimp only) <;> exact ⟨le_refl 0, hmax⟩
  · intro n i hmax
    unfold SustainedOutputNode.update
    split_ifs <;> (try dsimp only) <;>
      exact ⟨integrateClamp_nonneg n i hmax, integrateClamp_le n i⟩
  · intro n sv r1 r2
    refine ⟨fun hIT hmax => ?_, fun hIT hsv1 hsv2 hmax => ?_, fun hIT hr1 hr2 hmax => ?_⟩
    · simp only [InputNode.update, hIT]
      exact ⟨le_refl 0, hmax⟩
    · simp only [InputNode.update, hIT]
      constructor <;> linarith
    · simp only [InputNode.update, hIT]
      split_ifs <;> (try dsimp only)
      · constructor <;> linarith
      · constructor <;> linarith
  · intro n v hv hvm
    exact ⟨⟨hv, hvm⟩, ⟨hv, hvm⟩⟩

/-- C1 (witness). -/
theorem C1_witness :
    0 ≤ (BrainNode.update scenarioBrainNode (3/2) false).potential ∧
    (BrainNode.update scenarioBrainNode (3/2) false).potential ≤
      (BrainNode.update scenarioBrainNode (3/2) false).maxPotential ∧
    0 ≤ (InputNode.setInput scenarioSensorNode 1).potential := by
  have hb := C1_amended.1 scenarioBrainNode (3/2) false
    (by norm_num [scenarioBrainNode, BrainNode.init, BaseNode.init])
    (by norm_num [scenarioBrainNode, BrainNode.init, BaseNode.init])
    (by norm_num [scenarioBrainNode, BrainNode.init, BaseNode.init])
    (by norm_num [scenarioBrainNode, BrainNode.init, BaseNode.init])
    (by norm_num [scenarioBrainNode, BrainNode.init, BaseNode.init])
  have hs := (C1_amended.2.2.2.2 scenarioSensorNode 1 (by norm_num)
    (by norm_num [scenarioSensorNode, InputNode.init, BaseNode.init])).1
  exact ⟨hb.1, hb.2, hs.1⟩

/-- C2 (counterexample): a sustained actuator with `refractoryPeriod = 2`
(set by `updateModule`) fires on tick 1 and again on tick 2 —
`SustainedOutputNode.update` performs no refractory check at all. -/
theorem C2_counterexample :
    cxC2node.refractoryPeriod = 2 ∧
    cxC2node.activationType = ActivationType.SUSTAINED ∧
    (SustainedOutputNode.run cxC2node (fun _ => 3/2) 1).isFiring = true ∧
    (SustainedOutputNode.run cxC2node (fun _ => 3/2) 2).isFiring = true := by
  norm_num [SustainedOutputNode.run, SustainedOutputNode.update, cxC2node,
    scenarioSustainedNode, SustainedOutputNode.init, BaseNode.init, integrateClamp]

/-- C2 (amended): for recurrent (brain) nodes — in either activation mode,
which `BrainNode.update` does not even consult — a node that fired at tick
`T+1` cannot fire again during the next `refractoryPeriod + jitter` ticks
(so in particular not before tick `T+1+refractoryPeriod`). -/
theorem C2_amended (n : NodeState) (inp : ℕ → ℚ) (jit : ℕ → Bool) (T : ℕ)
    (hf : (BrainNode.run n inp jit (T + 1)).isFiring = true) :
    ∀ d, 1 ≤ d → d ≤ n.refractoryPeriod + (if jit T then 1 else 0) →
      (BrainNode.run n inp jit (T + 1 + d)).isFiring = false := by
  intro d h1 h2
  have hrunT : BrainNode.run n inp jit (T + 1) =
      BrainNode.update (BrainNode.run n inp jit T) (inp T) (jit T) := rfl
  have htimer : (BrainNode.run n inp jit (T + 1)).refractoryTimer =
      n.refractoryPeriod + (if jit T then 1 else 0) := by
    rw [hrunT]
    have hft := brain_fire_timer (BrainNode.run n inp jit T) (inp T) (jit T)
      (by rw [← hrunT]; exact hf)
    rw [hft, brain_run_period]
  have hpeel := brain_run_add n inp jit (T + 1) d
  rw [hpeel]
  exact (brain_gate_run d h1 _ _ _ (by rw [htimer]; exact h2)).1

/-- C2 (witness). -/
theorem C2_witness :
    (BrainNode.run scenarioBrainNode (fun _ => 3/2) (fun _ => false) 2).isFiring = false := by
  have h := C2_amended scenarioBrainNode (fun _ => 3/2) (fun _ => false) 0
    (by norm_num [BrainNode.run, BrainNode.update, scenarioBrainNode, BrainNode.init,
      BaseNode.init, integrateClamp, effectiveCT, adaptiveRaise]) 1 (by norm_num)
    (by norm_num [scenarioBrainNode, BrainNode.init, BaseNode.init])
  simpa using h

/-- C4 (counterexample): when the refractory jitter drawn on the tick-1
fire is `1`, the scenario node is still silent on tick 4 (it fires on
tick 5 instead), so "fires again on tick 4" does not hold as stated. -/
theorem C4_counterexample :
    (BrainNode.run scenarioBrainNode (fun _ => 3/2) (fun _ => true) 1).isFiring = true ∧
    (BrainNode.run scenarioBrainNode (fun _ => 3/2) (fun _ => true) 2).isFiring = false ∧
    (BrainNode.run scenarioBrainNode (fun _ => 3/2) (fun _ => true) 3).isFiring = false ∧
    (BrainNode.run scenarioBrainNode (fun _ => 3/2) (fun _ => true) 4).isFiring = false := by
  norm_num [BrainNode.run, BrainNode.update, scenarioBrainNode, BrainNode.init, BaseNode.init,
    integrateClamp, effectiveCT, adaptiveRaise, adaptiveLower]

/-- C4 (amended): the scenario unit fires on tick 1 and is silent on ticks
2–3; it fires again on tick 4 when the jitter drawn at the tick-1 fire is
`0`, and on tick 5 (silent on tick 4) when that jitter is `1`. -/
theorem C4_amended :
    ((BrainNode.run scenarioBrainNode (fun _ => 3/2) (fun _ => false) 1).isFiring = true ∧
     (BrainNode.run scenarioBrainNode (fun _ => 3/2) (fun _ => false) 2).isFiring = false ∧
     (BrainNode.run scenarioBrainNode (fun _ => 3/2) (fun _ => false) 3).isFiring = false ∧
     (BrainNode.run scenarioBrainNode (fun _ => 3/2) (fun _ => false) 4).isFiring = true) ∧
    ((BrainNode.run scenarioBrainNode (fun _ => 3/2) (fun _ => true) 4).isFiring = false ∧
     (BrainNode.run scenarioBrainNode (fun _ => 3/2) (fun _ => true) 5).isFiring = true) := by
  constructor <;>
    norm_num [BrainNode.run, BrainNode.update, scenarioBrainNode, BrainNode.init, BaseNode.init,
      integrateClamp, effectiveCT, adaptiveRaise, adaptiveLower]

/-- C5 (confirmed): sustained actuators never hard-reset on fire (a firing
`SustainedOutputNode.update` leaves `potential ≥ threshold`); under the
scenario drive the sustained actuator fires every tick from tick 1 on with
`potential ≥ threshold` and `refractoryTimer = 0` throughout; and the
legacy `Node` sustained actuator keeps `potential ≥ threshold` through its
whole refractory window and fires again exactly on the first tick entered
with `refractoryTimer = 0`, for either jitter draw. -/
theorem C5_sustained_scenario :
    (∀ (m : NodeState) (i : ℚ), (SustainedOutputNode.update m i).isFiring = true →
      (SustainedOutputNode.update m i).potential ≥ m.threshold) ∧
    (∀ t, 1 ≤ t →
      (SustainedOutputNode.run scenarioSustainedNode (fun _ => 3/2) t).isFiring = true ∧
      1 ≤ (SustainedOutputNode.run scenarioSustainedNode (fun _ => 3/2) t).potential ∧
      (SustainedOutputNode.run scenarioSustainedNode (fun _ => 3/2) t).refractoryTimer = 0) ∧
    (∀ jit : ℕ → Bool,
      (Node.run scenarioClassicSustained (fun _ => 3/2) jit 1).isFiring = true ∧
      (∀ t, 2 ≤ t → t ≤ 3 + (if jit 0 then 1 else 0) →
        (Node.run scenarioClassicSustained (fun _ => 3/2) jit t).isFiring = false ∧
        1 ≤ (Node.run scenarioClassicSustained (fun _ => 3/2) jit t).potential) ∧
      (∀ t, 1 ≤ t → t ≤ 2 + (if jit 0 then 1 else 0) →
        0 < (Node.run scenarioClassicSustained (fun _ => 3/2) jit t).refractoryTimer) ∧
      (Node.run scenarioClassicSustained (fun _ => 3/2) jit
        (3 + (if jit 0 then 1 else 0))).refractoryTimer = 0 ∧
      (Node.run scenarioClassicSustained (fun _ => 3/2) jit
        (4 + (if jit 0 then 1 else 0))).isFiring = true) := by
  refine ⟨sus_no_reset, fun t ht => ?_, classic_scenario⟩
  have h := sus_scn_inv t
  exact ⟨(h.2 ht).1, (h.2 ht).2, h.1.2.2.2.2.1⟩

theorem filter_map_weight (conns : List Connection) (tid : String) (w : ℚ) :
    ((conns.map (fun c => if c.targetId == tid then { c with weight := w } else c)).filter
      (fun c => c.targetId == tid))
    = (conns.filter (fun c => c.targetId == tid)).map (fun c => { c with weight := w }) := by
  rw [List.filter_map]
  have hp : ((fun c => c.targetId == tid) ∘
      (fun c => if c.targetId == tid then ({ c with weight := w } : Connection) else c)) =
      fun c => c.targetId == tid := by
    funext c
    by_cases h : c.targetId = tid
    · simp [h]
    · simp [h]
  rw [hp]
  apply List.map_congr_left
  intro c hc
  have hmem := List.of_mem_filter hc
  have heq : c.targetId = tid := by simpa using hmem
  simp [heq]

theorem sum_map_const_weight (l : List Connection) (a : ℚ) :
    ((l.map (fun _ => a)).sum) = (l.length : ℚ) * a := by
  induction l with
  | nil => simp
  | cons hd tl ih => simp [ih]; ring

/-- C6 (confirmed): when `addConnection` lands an edge on a node of a
`SUSTAINED_OUTPUT` module, every incoming weight of that node is
immediately overwritten with `gain / incomingCount` (gain defaulting to
`3.0`), so the incoming weights sum to exactly `gain` for any fan-in. -/
theorem C6_sustained_renormalization (s : NeuralNet) (cfg : ConnectionConfig)
    (mid : String) (m : ModuleConfig)
    (hmap : alistGet s.nodeModuleMap cfg.targetId = some mid)
    (hmod : s.getModule mid = some m)
    (htype : m.type = ModuleType.SUSTAINED_OUTPUT)
    (hnode : (s.getNode cfg.targetId).isSome) :
    0 < ((s.addConnection cfg).incoming cfg.targetId).length ∧
    (∀ c ∈ (s.addConnection cfg).incoming cfg.targetId,
      c.weight = m.gain.getD 3 / (((s.addConnection cfg).incoming cfg.targetId).length : ℚ)) ∧
    (((s.addConnection cfg).incoming cfg.targetId).map (fun c => c.weight)).sum
      = m.gain.getD 3 := by
  obtain ⟨nd, hnd⟩ := Option.isSome_iff_exists.mp hnode
  have hne : ¬ (m.type ≠ ModuleType.SUSTAINED_OUTPUT) := by simp [htype]
  have hmod' : s.modules.find? (fun m0 => m0.id == mid) = some m := hmod
  have hnd' : s.nodes.find? (fun n => n.id == cfg.targetId) = some nd := hnd
  set newConn : Connection := { cfg with signalStrength := 0 } with hnew
  set base := s.connections.filter (fun c => c.targetId == cfg.targetId) with hbase
  have hfilter : ((s.connections ++ [newConn]).filter (fun c => c.targetId == cfg.targetId))
      = base ++ [newConn] := by
    rw [List.filter_append]
    simp [hnew]
  have hlen0 : ¬ ((base ++ [newConn]).length = 0) := by simp
  unfold NeuralNet.addConnection NeuralNet.normalizeSustainedWeights
  dsimp only
  rw [hmap]
  dsimp only
  unfold NeuralNet.getModule
  dsimp only
  rw [hmod']
  dsimp only
  rw [if_neg hne]
  unfold NeuralNet.getNode
  dsimp only
  rw [hnd']
  dsimp only
  unfold NeuralNet.incoming
  dsimp only
  rw [hfilter, if_neg hlen0]
  dsimp only
  rw [filter_map_weight, hfilter]
  constructor
  · simp
  constructor
  · intro c hc
    rw [List.mem_map] at hc
    obtain ⟨c0, _, hc0⟩ := hc
    rw [← hc0]
    simp
  · rw [List.map_map]
    simp only [Function.comp_def]
    rw [sum_map_const_weight]
    have hl : ((base ++ [newConn]).length : ℚ) ≠ 0 := by positivity
    field_simp

/-- C6 (witness). -/
theorem C6_witness :
    0 < ((wC6net.addConnection wC6cfg).incoming wC6cfg.targetId).length ∧
    (∀ c ∈ (wC6net.addConnection wC6cfg).incoming wC6cfg.targetId,
      c.weight = wC6susMod.gain.getD 3 /
        (((wC6net.addConnection wC6cfg).incoming wC6cfg.targetId).length : ℚ)) ∧
    (((wC6net.addConnection wC6cfg).incoming wC6cfg.targetId).map (fun c => c.weight)).sum
      = wC6susMod.gain.getD 3 :=
  C6_sustained_renormalization wC6net wC6cfg "so" wC6susMod (by rfl) (by rfl) (by rfl)
    (by rfl)

/-- C5 (witness). -/
theorem C5_witness :
    (SustainedOutputNode.update scenarioSustainedNode (3/2)).potential ≥
      scenarioSustainedNode.threshold ∧
    (SustainedOutputNode.run scenarioSustainedNode (fun _ => 3/2) 2).isFiring = true ∧
    (Node.run scenarioClassicSustained (fun _ => 3/2) (fun _ => false) 4).isFiring = true := by
  refine ⟨C5_sustained_scenario.1 scenarioSustainedNode (3/2) ?_,
    (C5_sustained_scenario.2.1 2 (by norm_num)).1, ?_⟩
  · norm_num [SustainedOutputNode.update, scenarioSustainedNode, SustainedOutputNode.init,
      BaseNode.init, integrateClamp]
  · have h := (C5_sustained_scenario.2.2 (fun _ => false)).2.2.2.2
    simpa using h

/-! ### C7: grouped normalization of cross-brain-module signals -/

theorem gatherStep_eq (s : NeuralNet) (node : NodeState) (a : ℚ)
    (g : List (String × List ℚ)) (c : Connection) :
    gatherStep s node (a, g) c =
      (a + s.plainSignal node c,
       match s.extPair node c with
       | some p => pushVal g p.1 p.2
       | none => g) := by
  unfold gatherStep NeuralNet.plainSignal NeuralNet.extPair
  cases hra : s.rawSignalOf node c with
  | none => simp
  | some raw =>
    cases hx : s.isExternalBrain node c with
    | false => simp [hx]
    | true =>
      cases hk : alistGet s.nodeModuleMap c.sourceId with
      | none => simp [hx, hk]
      | some smid => simp [hx, hk]

theorem gather_foldl (s : NeuralNet) (node : NodeState) (L : List Connection)
    (a : ℚ) (g : List (String × List ℚ)) :
    L.foldl (gatherStep s node) (a, g) =
      (a + (L.map (s.plainSignal node)).sum,
       (L.filterMap (s.extPair node)).foldl (fun acc p => pushVal acc p.1 p.2) g) := by
  induction L generalizing a g with
  | nil => simp
  | cons c t ih =>
    rw [List.foldl_cons, gatherStep_eq]
    cases hp : s.extPair node c with
    | none =>
      rw [ih]
      simp [List.filterMap_cons, hp, add_assoc]
    | some p =>
      rw [ih]
      simp [List.filterMap_cons, hp, add_assoc]

theorem sum_map_filter_split (P : List (String × ℚ)) (g : String × ℚ → ℚ) (a : String) :
    (P.map g).sum =
      ((P.filter (fun q => q.1 == a)).map g).sum +
        ((P.filter (fun q => ¬ q.1 == a)).map g).sum := by
  induction P with
  | nil => simp
  | cons p t ih =>
    by_cases hp : p.1 = a
    · simp only [List.map_cons, List.sum_cons, List.filter_cons]
      simp [hp, ih]
      ring
    · simp only [List.map_cons, List.sum_cons, List.filter_cons]
      simp [hp, ih]
      ring

theorem filter_key_of_ne (t : List (String × ℚ)) (a k : String) (h : k ≠ a) :
    (t.filter (fun q => ¬ q.1 == a)).filter (fun q => q.1 == k) =
      t.filter (fun q => q.1 == k) := by
  rw [List.filter_filter]
  apply List.filter_congr
  intro x hx
  by_cases hxk : x.1 = k
  · have hxa : ¬ x.1 = a := by rw [hxk]; exact h
    simp only [hxk]
    simp [h]
  · simp [hxk]

theorem groupKeys_mem (P : List (String × ℚ)) (k : String) :
    k ∈ groupKeys P ↔ k ∈ P.map Prod.fst := by
  induction P using groupKeys.induct with
  | case1 => simp [groupKeys]
  | case2 p t ih =>
    rw [groupKeys]
    simp only [List.mem_cons, List.map_cons]
    constructor
    · rintro (h | h)
      · simp [h]
      · have := ih.mp h
        rw [List.mem_map] at this
        obtain ⟨q, hq, hqk⟩ := this
        have := List.mem_of_mem_filter hq
        right
        rw [List.mem_map]
        exact ⟨q, this, hqk⟩
    · rintro (h | h)
      · exact Or.inl h
      · rw [List.mem_map] at h
        obtain ⟨q, hq, hqk⟩ := h
        by_cases hk : k = p.1
        · exact Or.inl hk
        · right
          apply ih.mpr
          rw [List.mem_map]
          refine ⟨q, ?_, hqk⟩
          apply List.mem_filter.mpr
          refine ⟨hq, ?_⟩
          simp
          intro hc
          exact hk (by rw [← hqk, hc])

theorem groupKeys_nodup (P : List (String × ℚ)) : (groupKeys P).Nodup := by
  induction P using groupKeys.induct with
  | case1 => simp [groupKeys]
  | case2 p t ih =>
    rw [groupKeys]
    refine List.Nodup.cons ?_ ih
    intro hmem
    have := (groupKeys_mem _ _).mp hmem
    rw [List.mem_map] at this
    obtain ⟨q, hq, hqk⟩ := this
    have hfil := List.mem_filter.mp hq
    simp at hfil
    exact hfil.2 (by rw [hqk])

theorem groupKeys_snoc (P : List (String × ℚ)) (k : String) (v : ℚ) :
    groupKeys (P ++ [(k, v)]) =
      if k ∈ groupKeys P then groupKeys P else groupKeys P ++ [k] := by
  induction P using groupKeys.induct with
  | case1 => simp [groupKeys]
  | case2 p t ih =>
    rw [List.cons_append, groupKeys, groupKeys]
    rw [List.filter_append]
    by_cases hk : k = p.1
    · have hf : List.filter (fun q => ¬ q.1 == p.1) [(k, v)] = [] := by
        simp [hk]
      rw [hf, List.append_nil]
      subst hk
      simp
    · have hf : List.filter (fun q => ¬ q.1 == p.1) [(k, v)] = [(k, v)] := by
        simp [hk]
      rw [hf, ih]
      by_cases hmem : k ∈ groupKeys (t.filter (fun q => ¬ q.1 == p.1))
      · have hm2 : k ∈ p.1 :: groupKeys (t.filter (fun q => ¬ q.1 == p.1)) :=
          List.mem_cons_of_mem _ hmem
        rw [if_pos hmem, if_pos hm2]
      · have hm2 : ¬ k ∈ p.1 :: groupKeys (t.filter (fun q => ¬ q.1 == p.1)) := by
          simp only [List.mem_cons]
          rintro (h | h)
          · exact hk h
          · exact hmem h
        rw [if_neg hmem, if_neg hm2]
        rfl

theorem pushVal_map (ks : List String) (F : String → List ℚ) (k : String) (v : ℚ)
    (hnd : ks.Nodup) :
    pushVal (ks.map (fun x => (x, F x))) k v =
      if k ∈ ks then ks.map (fun x => (x, if x == k then F x ++ [v] else F x))
      else ks.map (fun x => (x, F x)) ++ [(k, [v])] := by
  induction ks with
  | nil => simp [pushVal]
  | cons a t ih =>
    rw [List.map_cons, pushVal]
    by_cases hak : a = k
    · subst hak
      rw [if_pos (List.mem_cons_self _ _)]
      simp only [beq_self_eq_true, if_true, List.map_cons]
      congr 1
      apply List.map_congr_left
      intro x hx
      have hxa : (x == a) = false :=
        beq_eq_false_iff_ne.mpr (fun h => (List.nodup_cons.mp hnd).1 (h ▸ hx))
      rw [hxa]
      simp
    · have hba : (a == k) = false := beq_eq_false_iff_ne.mpr hak
      rw [hba]
      simp only [Bool.false_eq_true, if_false]
      rw [ih (List.nodup_cons.mp hnd).2]
      by_cases hkt : k ∈ t
      · rw [if_pos hkt, if_pos (List.mem_cons_of_mem a hkt), List.map_cons]
        rw [hba]
        simp
      · have hnk : ¬ k ∈ a :: t := by
          simp only [List.mem_cons]
          rintro (h | h)
          · exact hak h.symm
          · exact hkt h
        rw [if_neg hkt, if_neg hnk]
        rfl

theorem canonGroups_snoc (l : List (String × ℚ)) (k : String) (v : ℚ) :
    canonGroups (l ++ [(k, v)]) = pushVal (canonGroups l) k v := by
  unfold canonGroups
  rw [pushVal_map _ _ _ _ (groupKeys_nodup l), groupKeys_snoc]
  by_cases hk : k ∈ groupKeys l
  · rw [if_pos hk, if_pos hk]
    apply List.map_congr_left
    intro x hx
    rw [List.filter_append]
    by_cases hxk : x = k
    · subst hxk
      simp
    · have h1 : (([(k, v)] : List (String × ℚ)).filter (fun q => q.1 == x)) = [] := by
        simp [Ne.symm hxk]
      have h2 : (x == k) = false := beq_eq_false_iff_ne.mpr hxk
      rw [h1, List.append_nil, h2]
      simp
  · rw [if_neg hk, if_neg hk, List.map_append]
    congr 1
    · apply List.map_congr_left
      intro x hx
      have hxk : x ≠ k := fun h => hk (h ▸ hx)
      rw [List.filter_append]
      have h1 : (([(k, v)] : List (String × ℚ)).filter (fun q => q.1 == x)) = [] := by
        simp [Ne.symm hxk]
      rw [h1, List.append_nil]
    · have hl : l.filter (fun q => q.1 == k) = [] := by
        rw [List.filter_eq_nil_iff]
        intro q hq hq1
        apply hk
        apply (groupKeys_mem l k).mpr
        rw [List.mem_map]
        exact ⟨q, hq, by simpa using hq1⟩
      simp [List.filter_append, hl]

theorem buildGroups_eq_canon (l : List (String × ℚ)) :
    buildGroups l = canonGroups l := by
  induction l using List.reverseRecOn with
  | nil => simp [buildGroups, canonGroups, groupKeys]
  | append_singleton t p ih =>
    cases p with
    | mk k v =>
      have hstep : buildGroups (t ++ [(k, v)]) = pushVal (buildGroups t) k v := by
        simp [buildGroups, List.foldl_append]
      rw [hstep, ih, canonGroups_snoc]

theorem sum_partition (P : List (String × ℚ)) (g : String × ℚ → ℚ) :
    (P.map g).sum =
      ((groupKeys P).map (fun k => ((P.filter (fun q => q.1 == k)).map g).sum)).sum := by
  induction P using groupKeys.induct with
  | case1 => simp [groupKeys]
  | case2 p t ih =>
    rw [List.map_cons, List.sum_cons, sum_map_filter_split t g p.1]
    rw [groupKeys, List.map_cons, List.sum_cons]
    have h1 : (p :: t).filter (fun q => q.1 == p.1) = p :: t.filter (fun q => q.1 == p.1) := by
      simp [List.filter_cons]
    have h2 : ((groupKeys (t.filter (fun q => ¬ q.1 == p.1))).map
        (fun k => (((p :: t).filter (fun q => q.1 == k)).map g).sum)) =
      ((groupKeys (t.filter (fun q => ¬ q.1 == p.1))).map
        (fun k => (((t.filter (fun q => ¬ q.1 == p.1)).filter (fun q => q.1 == k)).map g).sum)) := by
      apply List.map_congr_left
      intro k hkmem
      have hkne : k ≠ p.1 := by
        have hmm := (groupKeys_mem _ _).mp hkmem
        rw [List.mem_map] at hmm
        obtain ⟨q, hq, hqk⟩ := hmm
        have hfil := List.mem_filter.mp hq
        intro hc
        simp at hfil
        exact hfil.2 (by rw [hqk, hc])
      rw [filter_key_of_ne t p.1 k hkne]
      have hhead : (p :: t).filter (fun q => q.1 == k) = t.filter (fun q => q.1 == k) := by
        rw [List.filter_cons]
        simp [Ne.symm hkne]
      rw [hhead]
    rw [h2, ← ih, h1, List.map_cons, List.sum_cons]
    ring

theorem specTerm_split (s : NeuralNet) (node : NodeState) (E : String → ℕ) (c : Connection) :
    (match s.rawSignalOf node c with
     | none => (0:ℚ)
     | some raw =>
       if s.isExternalBrain node c then
         match alistGet s.nodeModuleMap c.sourceId with
         | some smid => raw * (1 / (E smid : ℚ))
         | none => 0
       else raw) =
      s.plainSignal node c +
        (match s.extPair node c with
         | none => 0
         | some p => p.2 * (1 / (E p.1 : ℚ))) := by
  unfold NeuralNet.plainSignal NeuralNet.extPair
  cases hra : s.rawSignalOf node c with
  | none => simp
  | some raw =>
    cases hx : s.isExternalBrain node c with
    | false => simp [hx]
    | true =>
      cases hk : alistGet s.nodeModuleMap c.sourceId with
      | none => simp [hx, hk]
      | some smid => simp [hx, hk]

theorem extCount_eq (s : NeuralNet) (node : NodeState) (L : List Connection) (mid : String) :
    (L.filter (fun c =>
        (s.rawSignalOf node c).isSome ∧ s.isExternalBrain node c = true ∧
          alistGet s.nodeModuleMap c.sourceId == some mid)).length =
      ((L.filterMap (s.extPair node)).filter (fun q => q.1 == mid)).length := by
  induction L with
  | nil => rfl
  | cons c t ih =>
    rw [List.filter_cons, List.filterMap_cons]
    cases hra : s.rawSignalOf node c with
    | none =>
      have hp : s.extPair node c = none := by
        unfold NeuralNet.extPair
        rw [hra]
      simp [hra, hp]
      simp at ih
      omega
    | some raw =>
      cases hx : s.isExternalBrain node c with
      | false =>
        have hp : s.extPair node c = none := by
          unfold NeuralNet.extPair
          rw [hra]
          simp [hx]
        simp [hra, hx, hp]
        simp at ih
        omega
      | true =>
        cases hk : alistGet s.nodeModuleMap c.sourceId with
        | none =>
          have hp : s.extPair node c = none := by
            unfold NeuralNet.extPair
            rw [hra]
            simp [hx, hk]
          simp [hra, hx, hk, hp]
          simp at ih
          omega
        | some smid =>
          have hp : s.extPair node c = some (smid, raw) := by
            unfold NeuralNet.extPair
            rw [hra]
            simp [hx, hk]
          by_cases hmid : smid = mid
          · simp [hra, hx, hk, hp, hmid, List.filter_cons]
            simp at ih
            omega
          · simp [hra, hx, hk, hp, hmid, List.filter_cons]
            simp at ih
            omega

theorem sum_match_filterMap (L : List Connection) (f : Connection → Option (String × ℚ))
    (g : String × ℚ → ℚ) :
    (L.map (fun c => match f c with | none => (0:ℚ) | some p => g p)).sum =
      ((L.filterMap f).map g).sum := by
  induction L with
  | nil => rfl
  | cons c t ih =>
    cases hf : f c <;> simp [List.filterMap_cons, hf, ih]

theorem sum_map_add (L : List Connection) (f g : Connection → ℚ) :
    (L.map (fun c => f c + g c)).sum = (L.map f).sum + (L.map g).sum := by
  induction L with
  | nil => simp
  | cons c t ih =>
    simp [ih]
    ring

theorem phaseB_sum (P : List (String × ℚ)) :
    ((canonGroups P).map (fun g => (g.2.map (fun r => r * (1 / (g.2.length : ℚ)))).sum)).sum =
      (P.map (fun q => q.2 * (1 / ((P.filter (fun q2 => q2.1 == q.1)).length : ℚ)))).sum := by
  rw [sum_partition P (fun q => q.2 * (1 / ((P.filter (fun q2 => q2.1 == q.1)).length : ℚ)))]
  unfold canonGroups
  rw [List.map_map]
  apply congrArg List.sum
  apply List.map_congr_left
  intro k hk
  dsimp only [Function.comp]
  rw [List.map_map, List.length_map]
  apply congrArg List.sum
  apply List.map_congr_left
  intro q hq
  have hq1 : q.1 = k := by simpa using (List.mem_filter.mp hq).2
  dsimp only [Function.comp]
  rw [hq1]

theorem spec_sum_split (s : NeuralNet) (node : NodeState) (E : String → ℕ) :
    ((s.incoming node.id).map (fun c =>
      match s.rawSignalOf node c with
      | none => (0:ℚ)
      | some raw =>
        if s.isExternalBrain node c then
          match alistGet s.nodeModuleMap c.sourceId with
          | some smid => raw * (1 / (E smid : ℚ))
          | none => 0
        else raw)).sum =
      ((s.incoming node.id).map (s.plainSignal node)).sum +
        (((s.incoming node.id).filterMap (s.extPair node)).map
          (fun p => p.2 * (1 / (E p.1 : ℚ)))).sum := by
  have h1 : ∀ c ∈ s.incoming node.id,
      (match s.rawSignalOf node c with
       | none => (0:ℚ)
       | some raw =>
         if s.isExternalBrain node c then
           match alistGet s.nodeModuleMap c.sourceId with
           | some smid => raw * (1 / (E smid : ℚ))
           | none => 0
         else raw) =
        s.plainSignal node c +
          (match s.extPair node c with
           | none => 0
           | some p => p.2 * (1 / (E p.1 : ℚ))) :=
    fun c _ => specTerm_split s node E c
  rw [List.map_congr_left h1, sum_map_add, sum_match_filterMap]

/-- C7: during `step()`, for every target node the incoming edges whose
source lies in a different BRAIN module (and whose target module is not a
sustained actuator) are grouped per source module and each contributes its
raw signal divided by the number of grouped edges from that module, while
all other edges contribute their raw signal directly: the aggregation
implemented by the fold over `gatherStep` equals the specification's
per-edge normalized sum, for every net and every node. -/
theorem C7_grouped_normalization (s : NeuralNet) (node : NodeState) :
    s.computeInputSum node = s.specInputSum node := by
  unfold NeuralNet.computeInputSum NeuralNet.specInputSum
  dsimp only
  rw [gather_foldl]
  dsimp only
  have hbg : List.foldl (fun acc p => pushVal acc p.1 p.2) []
      (List.filterMap (s.extPair node) (s.incoming node.id)) =
      canonGroups (List.filterMap (s.extPair node) (s.incoming node.id)) :=
    buildGroups_eq_canon _
  rw [hbg, phaseB_sum, spec_sum_split s node (fun mid =>
    (List.filter (fun c =>
      (s.rawSignalOf node c).isSome ∧ s.isExternalBrain node c = true ∧
        alistGet s.nodeModuleMap c.sourceId == some mid) (s.incoming node.id)).length)]
  rw [zero_add]
  congr 1
  apply congrArg List.sum
  apply List.map_congr_left
  intro q hq
  rw [extCount_eq]


/-! ### C8: degenerate wiring requests -/


theorem disconnect_nodesForSide (s : NeuralNet) (m1 m2 x : String) (side : ConnectionSide) :
    (s.disconnectModules m1 m2).getNodesForSide x side = s.getNodesForSide x side := rfl

/-- C8 (counterexample): with module `a` empty and a stale `b-a` link config
stored, `connectModules("a", "b", ...)` is not a no-op — the stale config is
deleted by the unconditional `disconnectModules` prologue even though the
zero-node guard then aborts the wiring. -/
theorem C8_counterexample :
    cxC8net.moduleConnections = [("b-a", cxC8cfg)] ∧
    (NeuralNet.connectModules (fun _ => 1/2) (fun _ => 0) id cxC8net
        "a" "b" ConnectionSide.ALL ConnectionSide.ALL 50 100 0).1.moduleConnections = [] := by
  constructor
  · rfl
  · rfl

/-- C8: when either side of the wiring request has zero nodes (or the
target module does not exist), `connectModules` returns exactly the state
produced by its unconditional `disconnectModules` prologue: no edges are
created, but every existing connection between the two modules and both
stored link configs (`A-B` and `B-A`) are removed before the guard aborts,
so the call is not a no-op. -/
theorem C8_amended (rng : ℕ → ℚ) (angleOf : String → ℚ)
    (shuffle : List NodeState → List NodeState) (s : NeuralNet) (A B : String)
    (srcSide tgtSide : ConnectionSide) (coverage localizer : ℚ) (ri : ℕ)
    (h : s.getNodesForSide A srcSide = [] ∨ s.getNodesForSide B tgtSide = []) :
    NeuralNet.connectModules rng angleOf shuffle s A B srcSide tgtSide coverage localizer ri
      = (s.disconnectModules A B, ri) := by
  unfold NeuralNet.connectModules
  dsimp only
  cases hm : (s.disconnectModules A B).getModule B with
  | none => rfl
  | some tm =>
    dsimp only
    have hz : ((s.disconnectModules A B).getNodesForSide A srcSide).length = 0 ∨
        ((s.disconnectModules A B).getNodesForSide B tgtSide).length = 0 := by
      rcases h with h | h
      · exact Or.inl (by rw [disconnect_nodesForSide, h]; rfl)
      · exact Or.inr (by rw [disconnect_nodesForSide, h]; rfl)
    rw [if_pos hz]

/-- C8 (witness for the amended theorem). -/
theorem C8_witness :
    cxC8net.getNodesForSide "a" ConnectionSide.ALL = [] ∧
    (NeuralNet.connectModules (fun _ => 1/3) (fun _ => 0) id cxC8net
        "a" "b" ConnectionSide.ALL ConnectionSide.ALL 50 100 7)
      = (cxC8net.disconnectModules "a" "b", 7) :=
  ⟨by rfl,
    C8_amended (fun _ => 1/3) (fun _ => 0) id cxC8net "a" "b"
      ConnectionSide.ALL ConnectionSide.ALL 50 100 7 (Or.inl (by rfl))⟩


/-! ### C9: pruning idempotence of the plasticity pass -/

theorem list_set_self {α : Type} (l : List α) (i : ℕ) (c : α) (h : l.get? i = some c) :
    l.set i c = l := by
  induction l generalizing i with
  | nil => simp at h
  | cons x t ih =>
    cases i with
    | zero =>
      rw [List.get?_cons_zero] at h
      cases h
      rfl
    | succ j =>
      rw [List.get?_cons_succ] at h
      rw [List.set_cons_succ, ih j h]

theorem hebbStep_rem (N : List NodeState) (m : ModuleConfig) (mid : String) (rate pt : ℚ)
    (conns : List Connection) (r : List String) (i : ℕ) :
    hebbStep N m mid rate pt (conns, r) i =
      ((hebbStep N m mid rate pt (conns, []) i).1,
        r ++ (hebbStep N m mid rate pt (conns, []) i).2) := by
  unfold hebbStep
  dsimp only
  cases hget : conns.get? i with
  | none => simp
  | some conn =>
    cases hs : List.find? (fun n => n.id == conn.sourceId) N with
    | none =>
      simp only [hs]
      simp
    | some src =>
      cases ht : List.find? (fun n => n.id == conn.targetId) N with
      | none =>
        simp only [hs, ht]
        simp
      | some tgt =>
        simp only [hs, ht]
        repeat' split
        all_goals simp [List.append_assoc]
theorem conn_eta (c : Connection) :
    ({ id := c.id, sourceId := c.sourceId, targetId := c.targetId,
       weight := c.weight, signalStrength := c.signalStrength } : Connection) = c := rfl

theorem hebbStep_silent (N : List NodeState) (m : ModuleConfig) (mid : String)
    (rate pt : ℚ) (conns : List Connection) (i : ℕ) (conn : Connection)
    (src tgt : NodeState)
    (hget : conns.get? i = some conn)
    (hs : List.find? (fun n => n.id == conn.sourceId) N = some src)
    (ht : List.find? (fun n => n.id == conn.targetId) N = some tgt)
    (hexc : src.neuronType = NeuronType.EXCITATORY)
    (hact : src.activation = 0)
    (hintS : strBegins conn.sourceId mid = true)
    (hintT : strBegins conn.targetId mid = true) :
    (hebbStep N m mid rate pt (conns, []) i).1 = conns ∧
    (∀ x ∈ (hebbStep N m mid rate pt (conns, []) i).2,
      ∃ c ∈ conns, x = c.id ∧ strBegins c.sourceId mid = true ∧
        strBegins c.targetId mid = true ∧ |c.weight| < pt) ∧
    (|conn.weight| < pt → conn.id ∈ (hebbStep N m mid rate pt (conns, []) i).2) := by
  unfold hebbStep
  simp only [hget, hs, ht]
  have hw : (if src.neuronType = NeuronType.EXCITATORY then
        conn.weight + rate * src.activation * tgt.activation
      else if tgt.averageFiringRate > 1/10 then conn.weight - 1/1000
      else conn.weight + 1/1000) = conn.weight := by
    rw [if_pos hexc, hact]
    ring
  rw [hw, conn_eta, list_set_self conns i conn hget]
  simp only [hact, mul_zero, zero_mul, zero_div, sub_zero, conn_eta, ite_self,
    List.map_id', hget]
  have htgtid : tgt.id = conn.targetId := by
    have h := List.find?_some ht
    simpa using h
  have hconnmem : conn ∈ conns := List.get?_mem hget
  refine ⟨by split_ifs <;> rfl, ?_, ?_⟩
  · intro x hx
    split_ifs at hx
    all_goals simp only [List.nil_append, List.mem_append, List.mem_map, List.mem_filter,
      List.mem_singleton, List.not_mem_nil, decide_eq_true_eq, or_false, false_or] at hx
    all_goals first
      | exact hx.elim
      | (exact ⟨conn, hconnmem, hx, hintS, hintT, by assumption⟩)
      | (rcases hx with hx | hx
         · obtain ⟨c, ⟨hcmem, ⟨hct, hcs⟩, hcw⟩, hxid⟩ := hx
           refine ⟨c, hcmem, hxid.symm, hcs, ?_, hcw⟩
           have hce : c.targetId = tgt.id := by simpa using hct
           rw [hce, htgtid]
           exact hintT
         · exact ⟨conn, hconnmem, hx, hintS, hintT, by assumption⟩)
      | (obtain ⟨c, ⟨hcmem, ⟨hct, hcs⟩, hcw⟩, hxid⟩ := hx
         refine ⟨c, hcmem, hxid.symm, hcs, ?_, hcw⟩
         have hce : c.targetId = tgt.id := by simpa using hct
         rw [hce, htgtid]
         exact hintT)
  · intro hbelow
    split_ifs <;> simp_all

theorem foldl_hebb (N : List NodeState) (m : ModuleConfig) (mid : String) (rate pt : ℚ)
    (L : List ℕ) (conns : List Connection) (r : List String)
    (hkeep : ∀ i ∈ L, (hebbStep N m mid rate pt (conns, []) i).1 = conns) :
    L.foldl (hebbStep N m mid rate pt) (conns, r) =
      (conns, r ++ L.flatMap (fun i => (hebbStep N m mid rate pt (conns, []) i).2)) := by
  induction L generalizing r with
  | nil => simp
  | cons i t ih =>
    rw [List.foldl_cons, hebbStep_rem, hkeep i (List.mem_cons_self i t)]
    rw [ih (r ++ (hebbStep N m mid rate pt (conns, []) i).2)
      (fun j hj => hkeep j (List.mem_cons_of_mem i hj))]
    simp [List.append_assoc]

theorem hebbianPass_silent (rng : ℕ → ℚ) (fuel now : ℕ) (s : NeuralNet)
    (m : ModuleConfig) (ri : ℕ)
    (hact : ∀ n ∈ s.nodes, n.activation = 0)
    (hres : ∀ c ∈ s.connections, strBegins c.sourceId m.id = true →
        strBegins c.targetId m.id = true →
        ∃ src tgt, List.find? (fun n => n.id == c.sourceId) s.nodes = some src ∧
          List.find? (fun n => n.id == c.targetId) s.nodes = some tgt ∧
          src.neuronType = NeuronType.EXCITATORY)
    (hnd : (s.connections.map (fun c => c.id)).Nodup)
    (htype : m.type = ModuleType.BRAIN)
    (hlearn : m.hebbianLearning.getD false = true)
    (hreg : ¬ 0 < qOr m.regrowthRate 0) :
    NeuralNet.hebbianModulePass rng fuel now s m ri =
      ({ s with connections := s.connections.filter (fun c =>
          ¬ (strBegins c.sourceId m.id = true ∧ strBegins c.targetId m.id = true ∧
             |c.weight| < m.pruningThreshold.getD (1/20))) }, ri) := by
  unfold NeuralNet.hebbianModulePass
  rw [if_pos ⟨htype, hlearn⟩]
  have hmem_idx : ∀ i ∈ (List.range s.connections.length).filter (fun i =>
        match s.connections.get? i with
        | some c => strBegins c.sourceId m.id ∧ strBegins c.targetId m.id
        | none => false),
      ∃ conn, s.connections.get? i = some conn ∧ strBegins conn.sourceId m.id = true ∧
        strBegins conn.targetId m.id = true := by
    intro i hi
    have hp := (List.mem_filter.mp hi).2
    cases hg : s.connections.get? i with
    | none =>
      rw [hg] at hp
      simp at hp
    | some conn =>
      rw [hg] at hp
      simp at hp
      exact ⟨conn, rfl, hp.1, hp.2⟩
  have hkeep : ∀ i ∈ (List.range s.connections.length).filter (fun i =>
        match s.connections.get? i with
        | some c => strBegins c.sourceId m.id ∧ strBegins c.targetId m.id
        | none => false),
      (hebbStep s.nodes m m.id (qOr m.learningRate (1/100))
        (m.pruningThreshold.getD (1/20)) (s.connections, []) i).1 = s.connections := by
    intro i hi
    obtain ⟨conn, hg, hiS, hiT⟩ := hmem_idx i hi
    obtain ⟨src, tgt, hsf, htf, hexc⟩ := hres conn (List.get?_mem hg) hiS hiT
    exact (hebbStep_silent s.nodes m m.id _ _ s.connections i conn src tgt hg hsf htf hexc
      (hact src (List.mem_of_find?_eq_some hsf)) hiS hiT).1
  dsimp only
  rw [foldl_hebb s.nodes m m.id (qOr m.learningRate (1/100)) (m.pruningThreshold.getD (1/20))
    ((List.range s.connections.length).filter (fun i =>
      match s.connections.get? i with
      | some c => strBegins c.sourceId m.id ∧ strBegins c.targetId m.id
      | none => false)) s.connections [] hkeep]
  simp only [List.nil_append]
  set R := ((List.range s.connections.length).filter (fun i =>
      match s.connections.get? i with
      | some c => strBegins c.sourceId m.id ∧ strBegins c.targetId m.id
      | none => false)).flatMap (fun i =>
      (hebbStep s.nodes m m.id (qOr m.learningRate (1/100)) (m.pruningThreshold.getD (1/20))
        (s.connections, []) i).2) with hR
  have hR1 : ∀ x ∈ R, ∃ c ∈ s.connections, x = c.id ∧ strBegins c.sourceId m.id = true ∧
      strBegins c.targetId m.id = true ∧ |c.weight| < m.pruningThreshold.getD (1/20) := by
    intro x hx
    rw [hR, List.mem_flatMap] at hx
    obtain ⟨i, hi, hxi⟩ := hx
    obtain ⟨conn, hg, hiS, hiT⟩ := hmem_idx i hi
    obtain ⟨src, tgt, hsf, htf, hexc⟩ := hres conn (List.get?_mem hg) hiS hiT
    exact (hebbStep_silent s.nodes m m.id _ _ s.connections i conn src tgt hg hsf htf hexc
      (hact src (List.mem_of_find?_eq_some hsf)) hiS hiT).2.1 x hxi
  have hR2 : ∀ c ∈ s.connections, strBegins c.sourceId m.id = true →
      strBegins c.targetId m.id = true → |c.weight| < m.pruningThreshold.getD (1/20) →
      c.id ∈ R := by
    intro c hc hcS hcT hcW
    obtain ⟨i, hgi⟩ := List.mem_iff_get?.mp hc
    have hiidx : i ∈ (List.range s.connections.length).filter (fun i =>
        match s.connections.get? i with
        | some c => strBegins c.sourceId m.id ∧ strBegins c.targetId m.id
        | none => false) := by
      rw [List.mem_filter]
      refine ⟨List.mem_range.mpr (List.get?_eq_some.mp hgi).1, ?_⟩
      rw [hgi]
      simp [hcS, hcT]
    rw [hR, List.mem_flatMap]
    refine ⟨i, hiidx, ?_⟩
    obtain ⟨src, tgt, hsf, htf, hexc⟩ := hres c hc hcS hcT
    exact (hebbStep_silent s.nodes m m.id _ _ s.connections i c src tgt hgi hsf htf hexc
      (hact src (List.mem_of_find?_eq_some hsf)) hcS hcT).2.2 hcW
  have hfeq : s.connections.filter (fun c => ¬ R.contains c.id) =
      s.connections.filter (fun c => ¬(strBegins c.sourceId m.id = true ∧
        strBegins c.targetId m.id = true ∧
        |c.weight| < m.pruningThreshold.getD (1/20))) := by
    apply List.filter_congr
    intro c hc
    rw [decide_eq_decide]
    apply not_congr
    constructor
    · intro hcon
      have hmem : c.id ∈ R := by simpa using hcon
      obtain ⟨c2, hc2, hid, h1, h2, h3⟩ := hR1 c.id hmem
      have hceq : c = c2 := List.inj_on_of_nodup_map hnd hc hc2 hid
      rw [hceq]
      exact ⟨h1, h2, h3⟩
    · rintro ⟨h1, h2, h3⟩
      have := hR2 c hc h1 h2 h3
      simpa using this
  by_cases hlen : R.length > 0
  · rw [if_pos hlen, hfeq, if_neg hreg]
  · rw [if_neg hlen]
    have hnil : R = [] := List.length_eq_zero.mp (Nat.eq_zero_of_not_pos hlen)
    have hfid : s.connections.filter (fun c => ¬(strBegins c.sourceId m.id = true ∧
        strBegins c.targetId m.id = true ∧
        |c.weight| < m.pruningThreshold.getD (1/20))) = s.connections := by
      apply List.filter_eq_self.mpr
      intro c hc
      simp only [decide_eq_true_eq]
      rintro ⟨h1, h2, h3⟩
      have := hR2 c hc h1 h2 h3
      rw [hnil] at this
      exact (List.not_mem_nil _ this).elim
    rw [hfid, if_neg hreg]

/-- C9: for a learning BRAIN module in which every node is silent and every
internal connection has an excitatory source, the per-tick plasticity pass
amounts to a single initial pruning-threshold check — the first pass
removes exactly the internal edges whose weight magnitude is below the
pruning threshold (changing no weight), and a second pass is the identity.
(The original claim fails when an internal edge has an inhibitory source:
the homeostatic rule moves its weight by ±0.001 on every pass even with
zero activity.) -/
theorem C9_pruning_idempotent (rng rng2 : ℕ → ℚ) (fuel now fuel2 now2 : ℕ)
    (s : NeuralNet) (m : ModuleConfig) (ri ri2 : ℕ)
    (hmods : s.modules = [m])
    (hact : ∀ n ∈ s.nodes, n.activation = 0)
    (hres : ∀ c ∈ s.connections, strBegins c.sourceId m.id = true →
        strBegins c.targetId m.id = true →
        ∃ src tgt, List.find? (fun n => n.id == c.sourceId) s.nodes = some src ∧
          List.find? (fun n => n.id == c.targetId) s.nodes = some tgt ∧
          src.neuronType = NeuronType.EXCITATORY)
    (hnd : (s.connections.map (fun c => c.id)).Nodup)
    (htype : m.type = ModuleType.BRAIN)
    (hlearn : m.hebbianLearning.getD false = true)
    (hreg : ¬ 0 < qOr m.regrowthRate 0) :
    s.plasticityPass rng fuel now ri =
      ({ s with connections := s.connections.filter (fun c =>
          ¬ (strBegins c.sourceId m.id = true ∧ strBegins c.targetId m.id = true ∧
             |c.weight| < m.pruningThreshold.getD (1/20))) }, ri) ∧
    (s.plasticityPass rng fuel now ri).1.plasticityPass rng2 fuel2 now2 ri2 =
      ((s.plasticityPass rng fuel now ri).1, ri2) := by
  have pass1 : s.plasticityPass rng fuel now ri =
      ({ s with connections := s.connections.filter (fun c =>
          ¬ (strBegins c.sourceId m.id = true ∧ strBegins c.targetId m.id = true ∧
             |c.weight| < m.pruningThreshold.getD (1/20))) }, ri) := by
    unfold NeuralNet.plasticityPass
    conv_lhs => rw [hmods]
    simp only [List.foldl_cons, List.foldl_nil]
    exact hebbianPass_silent rng fuel now s m ri hact hres hnd htype hlearn hreg
  refine ⟨pass1, ?_⟩
  rw [pass1]
  dsimp only
  set sP := { s with connections := s.connections.filter (fun c =>
      ¬ (strBegins c.sourceId m.id = true ∧ strBegins c.targetId m.id = true ∧
         |c.weight| < m.pruningThreshold.getD (1/20))) : NeuralNet } with hsP
  have h1' : ∀ n ∈ sP.nodes, n.activation = 0 := hact
  have h2' : ∀ c ∈ sP.connections, strBegins c.sourceId m.id = true →
      strBegins c.targetId m.id = true →
      ∃ src tgt, List.find? (fun n => n.id == c.sourceId) sP.nodes = some src ∧
        List.find? (fun n => n.id == c.targetId) sP.nodes = some tgt ∧
        src.neuronType = NeuronType.EXCITATORY :=
    fun c hc hS hT => hres c (List.mem_of_mem_filter hc) hS hT
  have h3' : (sP.connections.map (fun c => c.id)).Nodup :=
    List.Nodup.sublist (List.Sublist.map _ (List.filter_sublist _)) hnd
  have pass2 := hebbianPass_silent rng2 fuel2 now2 sP m ri2 h1' h2' h3' htype hlearn hreg
  unfold NeuralNet.plasticityPass
  have hm2 : sP.modules = [m] := hmods
  conv_lhs => rw [hm2]
  simp only [List.foldl_cons, List.foldl_nil]
  rw [pass2]
  have hff : sP.connections.filter (fun c =>
      ¬ (strBegins c.sourceId m.id = true ∧ strBegins c.targetId m.id = true ∧
         |c.weight| < m.pruningThreshold.getD (1/20))) = sP.connections := by
    apply List.filter_eq_self.mpr
    intro c hc
    exact (List.mem_filter.mp hc).2
  rw [hff]

/-- C9 (counterexample): an internal edge with an inhibitory source in a
completely silent learning module (all activations and firing rates zero)
is moved by `+0.001` on the first pass and again on the second — the pass
keeps changing weights beyond the initial threshold check. -/
theorem C9_counterexample :
    ((cxC9net.plasticityPass (fun _ => 1/2) 0 0 0).1.connections.map (fun c => c.weight))
      = [-(499/1000)] ∧
    ((((cxC9net.plasticityPass (fun _ => 1/2) 0 0 0).1.plasticityPass
        (fun _ => 1/2) 0 0 0).1.connections.map (fun c => c.weight)))
      = [-(249/500)] := by
  constructor
  all_goals norm_num [NeuralNet.plasticityPass, NeuralNet.hebbianModulePass, hebbStep,
      cxC9net, mkInhNode, mkExcNode, BrainNode.init, BaseNode.init, qOr, List.filter,
      List.find?, List.foldl, List.range, List.flatMap, List.get?, List.contains, List.elem,
      show ("m-0" == "m-1") = false from rfl, show ("m-1" == "m-0") = false from rfl,
      show strBegins "m-0" "m" = true from rfl, show strBegins "m-1" "m" = true from rfl,
      (by decide : NeuronType.INHIBITORY ≠ NeuronType.EXCITATORY),
      (show |(499/1000 : ℚ)| = 499/1000 by norm_num),
      (show |(249/500 : ℚ)| = 249/500 by norm_num)]

/-- C9 (witness for the amended theorem). -/
theorem C9_witness :
    wC9net.plasticityPass (fun _ => 1/2) 3 0 0 =
      ({ wC9net with connections := wC9net.connections.filter (fun c =>
          ¬ (strBegins c.sourceId wC9mod.id = true ∧ strBegins c.targetId wC9mod.id = true ∧
             |c.weight| < wC9mod.pruningThreshold.getD (1/20))) }, 0) ∧
    (wC9net.plasticityPass (fun _ => 1/2) 3 0 0).1.plasticityPass (fun _ => 1/3) 2 9 5 =
      ((wC9net.plasticityPass (fun _ => 1/2) 3 0 0).1, 5) := by
  refine C9_pruning_idempotent (fun _ => 1/2) (fun _ => 1/3) 3 0 2 9 wC9net wC9mod 0 5
    rfl ?_ ?_ ?_ rfl rfl ?_
  · intro n hn
    rcases List.mem_cons.mp hn with h | h2
    · rw [h]
      rfl
    · rcases List.mem_cons.mp h2 with h | h3
      · rw [h]
        rfl
      · exact absurd h3 (List.not_mem_nil n)
  · intro c hc hS hT
    rcases List.mem_cons.mp hc with h | h2
    · subst h
      exact ⟨mkExcNode "m-0" 0, mkExcNode "m-1" 0, rfl, rfl, rfl⟩
    · rcases List.mem_cons.mp h2 with h | h3
      · subst h
        exact ⟨mkExcNode "m-1" 0, mkExcNode "m-0" 0, rfl, rfl, rfl⟩
      · exact absurd h3 (List.not_mem_nil c)
  · show (wC9net.connections.map (fun c => c.id)).Nodup
    decide
  · norm_num [qOr, wC9mod]


/-! ### C3: Dale's principle for engine-created wiring -/

theorem alistGet_some_mem {β : Type} (l : List (String × β)) (k : String) (v : β)
    (h : alistGet l k = some v) : (k, v) ∈ l := by
  unfold alistGet at h
  cases hf : List.find? (fun p => p.1 == k) l with
  | none =>
    rw [hf] at h
    simp at h
  | some pair =>
    rw [hf] at h
    simp at h
    have hm := List.mem_of_find?_eq_some hf
    have hp := List.find?_some hf
    obtain ⟨a, b⟩ := pair
    simp at hp h
    subst hp
    subst h
    exact hm

theorem notSustainedTarget_congr (t s : NeuralNet) (nid : String)
    (h1 : s.nodeModuleMap = t.nodeModuleMap) (h2 : s.modules = t.modules) :
    notSustainedTarget s nid = notSustainedTarget t nid := by
  unfold notSustainedTarget NeuralNet.getModule
  rw [h1, h2]

theorem notSustainedTarget_conns (s : NeuralNet) (cs : List Connection) (nid : String) :
    notSustainedTarget { s with connections := cs } nid = notSustainedTarget s nid :=
  notSustainedTarget_congr s _ nid rfl rfl

theorem normalizeSustained_noop (s : NeuralNet) (nid : String)
    (h : notSustainedTarget s nid = true) : s.normalizeSustainedWeights nid = s := by
  unfold NeuralNet.normalizeSustainedWeights
  unfold notSustainedTarget at h
  cases hm : alistGet s.nodeModuleMap nid with
  | none => simp only [hm]
  | some mid =>
    simp only [hm] at h
    simp only [hm]
    cases hg : s.getModule mid with
    | none => simp only [hg]
    | some mm =>
      simp only [hg, decide_eq_true_eq] at h
      simp only [hg]
      rw [if_pos h]

theorem addConnection_push (s : NeuralNet) (cfg : Connection)
    (h : notSustainedTarget s cfg.targetId = true) :
    s.addConnection cfg =
      { s with connections := s.connections ++ [{ cfg with signalStrength := 0 }] } := by
  unfold NeuralNet.addConnection
  apply normalizeSustained_noop
  have hcongr := notSustainedTarget_congr s
    { s with connections := s.connections ++ [{ cfg with signalStrength := 0 }] }
    cfg.targetId rfl rfl
  rw [hcongr]
  exact h

theorem rewireStep_inv (rng : ℕ → ℚ) (m : ModuleConfig) (source : NodeState)
    (cpn : ℕ) (isLocalized : Bool) (leak tp : ℚ)
    (t : NeuralNet) (st : List NodeState × NeuralNet × ℕ) (k : ℕ)
    (hrng : ∀ i, 0 < rng i) (htp : 0 < tp)
    (hsrc : source ∈ t.nodes)
    (hInv : netInv t st.2.1) :
    netInv t (rewireStep rng m source cpn isLocalized leak tp st k).2.1 := by
  obtain ⟨cands, s, ri⟩ := st
  unfold rewireStep
  dsimp only at hInv ⊢
  split
  · exact hInv
  · rename_i target cands2 ri2 heq
    dsimp only
    rw [addConnection_push _ _ (hInv.2.1 _)]
    obtain ⟨hnodes, hns, hconns⟩ := hInv
    refine ⟨hnodes, ?_, ?_⟩
    · intro nid
      rw [notSustainedTarget_conns]
      exact hns nid
    · intro c hc
      rcases List.mem_append.mp hc with hc | hc
      · exact hconns c hc
      · have hce := List.mem_singleton.mp hc
        right
        rw [hce]
        refine ⟨source, hsrc, rfl, ?_⟩
        have hB : (0:ℚ) < (((1 ⊔ ((s.incoming target.id).length + cpn)) : ℕ) : ℚ) := by
          exact_mod_cast Nat.lt_of_lt_of_le Nat.zero_lt_one (le_max_left _ _)
        have hiw : (0:ℚ) <
            (1 / ((((1 ⊔ ((s.incoming target.id).length + cpn)) : ℕ) : ℚ) * tp)) ⊓ (1 / 2) :=
          lt_min (div_pos one_pos (mul_pos hB htp)) (by norm_num)
        have hr := hrng ri2
        dsimp only
        split_ifs with hn
        · nlinarith [hiw, hr]
        · nlinarith [hiw, hr]

theorem foldl_pres {α β : Type} (C : β → Prop) (f : β → α → β) (L : List α) (b : β)
    (hb : C b) (hstep : ∀ x, C x → ∀ a ∈ L, C (f x a)) : C (L.foldl f b) := by
  induction L generalizing b with
  | nil => exact hb
  | cons a tl ih =>
    rw [List.foldl_cons]
    exact ih (f b a) (hstep b hb a (List.mem_cons_self a tl))
      (fun x hx a2 ha2 => hstep x hx a2 (List.mem_cons_of_mem a ha2))

theorem rewire_inv (rng : ℕ → ℚ) (shuffle : List NodeState → List NodeState)
    (t s : NeuralNet) (mid : String) (ri : ℕ)
    (hrng : ∀ i, 0 < rng i)
    (htp : ∀ mm ∈ s.modules, 0 < mm.initialWeightModifier.getD (1/5))
    (hInv : netInv t s) :
    netInv t (NeuralNet.rewireInternalConnections rng shuffle s mid ri).1 := by
  unfold NeuralNet.rewireInternalConnections
  cases hg : s.getModule mid with
  | none => exact hInv
  | some m =>
    dsimp only
    have htpm : 0 < m.initialWeightModifier.getD (1/5) :=
      htp m (List.mem_of_find?_eq_some hg)
    have hInv1 : netInv t { s with connections := s.connections.filter (fun c =>
        ¬ (alistGet s.nodeModuleMap c.sourceId == some mid ∧
           alistGet s.nodeModuleMap c.targetId == some mid)) } := by
      obtain ⟨hn, hns, hc⟩ := hInv
      exact ⟨hn, fun nid => by rw [notSustainedTarget_conns]; exact hns nid,
        fun c hc2 => hc c (List.mem_of_mem_filter hc2)⟩
    refine foldl_pres (fun (acc : NeuralNet × ℕ) => netInv t acc.1) _ _ _ ?_ ?_
    · exact hInv1
    · intro acc hacc source hsourceMem
      dsimp only
      have hsrc : source ∈ t.nodes := by
        have h1 : source ∈ s.nodes := List.mem_of_mem_filter hsourceMem
        rw [hInv.1] at h1
        exact h1
      refine foldl_pres (fun (st : List NodeState × NeuralNet × ℕ) => netInv t st.2.1) _ _ _ ?_ ?_
      · exact hacc
      · intro st hst k hk
        exact rewireStep_inv rng m source _ _ _ _ t st k hrng htpm hsrc hst

theorem netInv_addConnection (t s : NeuralNet) (src : NodeState) (cfg : Connection)
    (hsrc : src ∈ t.nodes) (h : netInv t s) (hid : cfg.sourceId = src.id)
    (hw : if src.neuronType = NeuronType.EXCITATORY then 0 < cfg.weight else cfg.weight < 0) :
    netInv t (s.addConnection cfg) := by
  rw [addConnection_push _ _ (h.2.1 _)]
  obtain ⟨hn, hns, hc⟩ := h
  refine ⟨hn, ?_, ?_⟩
  · intro nid
    rw [notSustainedTarget_conns]
    exact hns nid
  · intro c hcm
    rcases List.mem_append.mp hcm with hcm | hcm
    · exact hc c hcm
    · right
      rw [List.mem_singleton.mp hcm]
      exact ⟨src, hsrc, hid, hw⟩

theorem connectLoop_inv (rng : ℕ → ℚ) (src : NodeState)
    (candidates preferred : List NodeState) (useLoc : Bool) (localizer : ℚ)
    (initialWeight : Option ℚ) (cps : ℕ) (t : NeuralNet)
    (hrng : ∀ i, 0 < rng i)
    (hsrc : src ∈ t.nodes)
    (hiw : ∀ iw, initialWeight = some iw → 0 < iw) :
    ∀ fuel (s : NeuralNet) (connected : List String) (ri : ℕ), netInv t s →
      netInv t (connectLoop rng src candidates preferred useLoc localizer initialWeight
        cps fuel s connected ri).1 := by
  intro fuel
  induction fuel with
  | zero =>
    intro s connected ri h
    exact h
  | succ n ih =>
    intro s connected ri h
    rw [connectLoop]
    split
    · exact h
    · dsimp only
      repeat' first
        | exact ih _ _ _ h
        | (apply ih
           refine netInv_addConnection t s src _ hsrc h ?_ ?_
           · rfl
           rcases hio : initialWeight with _ | iw
           · dsimp only
             split_ifs with hn2
             · exact mul_pos (hrng _) (by norm_num)
             · rw [neg_lt_zero]
               exact mul_pos (hrng _) (by norm_num)
           · have hpos := hiw iw hio
             dsimp only
             split_ifs with hn2
             · exact hpos
             · linarith)
        | split
theorem initialWeight_pos (X : Option ModuleConfig) (iw : ℚ)
    (h : (match X with
          | some m => if m.type = ModuleType.SUSTAINED_OUTPUT then some (1:ℚ) else none
          | none => none) = some iw) : 0 < iw := by
  cases X with
  | none => simp at h
  | some m =>
    simp only at h
    split_ifs at h with hmt
    cases h
    norm_num

theorem getModule_setLocalized (s : NeuralNet) (X mid : String) :
    (s.setModuleLocalized X).getModule mid =
      Option.map (fun m => if m.id == X then { m with isLocalized := some true } else m)
        (s.getModule mid) := by
  unfold NeuralNet.setModuleLocalized NeuralNet.getModule
  dsimp only
  rw [List.find?_map]
  have hcong : (fun m => (if m.id == X then { m with isLocalized := some true } else m).id == mid)
      = (fun (m : ModuleConfig) => m.id == mid) := by
    funext m
    by_cases hmx : m.id == X
    · rw [if_pos hmx]
    · rw [if_neg hmx]
  rw [show ((fun m => m.id == mid) ∘
      (fun m => if m.id == X then { m with isLocalized := some true } else m))
      = (fun (m : ModuleConfig) => m.id == mid) from hcong]

theorem notSustainedTarget_setLocalized (s : NeuralNet) (X nid : String) :
    notSustainedTarget (s.setModuleLocalized X) nid = notSustainedTarget s nid := by
  unfold notSustainedTarget
  have hmm : (s.setModuleLocalized X).nodeModuleMap = s.nodeModuleMap := rfl
  rw [hmm]
  cases hg : alistGet s.nodeModuleMap nid with
  | none => rfl
  | some mid =>
    simp only
    rw [getModule_setLocalized]
    cases hg2 : s.getModule mid with
    | none => rfl
    | some m =>
      rw [show Option.map
          (fun m => if m.id == X then { m with isLocalized := some true } else m) (some m)
          = some (if m.id == X then { m with isLocalized := some true } else m) from rfl]
      simp only
      by_cases hmx : m.id == X
      · rw [if_pos hmx]
      · rw [if_neg hmx]

theorem enum_snd_mem {α : Type} (l : List α) (p : ℕ × α) (hp : p ∈ l.enum) : p.2 ∈ l := by
  have h2 : p.2 ∈ l.enum.map Prod.snd := List.mem_map_of_mem Prod.snd hp
  rw [List.enum_map_snd] at h2
  exact h2

theorem getNodesForSide_mem (s : NeuralNet) (X : String) (side : ConnectionSide)
    (n : NodeState) (h : n ∈ s.getNodesForSide X side) : n ∈ s.nodes := by
  unfold NeuralNet.getNodesForSide at h
  cases hg : s.getModule X with
  | none =>
    simp only [hg] at h
    simp at h
  | some m =>
    simp only [hg] at h
    split_ifs at h
    all_goals first
      | exact List.mem_of_mem_filter h
      | exact List.mem_of_mem_filter (List.mem_of_mem_filter h)

theorem connect_inv (rng : ℕ → ℚ) (angleOf : String → ℚ)
    (shuffle : List NodeState → List NodeState) (s : NeuralNet)
    (A B : String) (srcSide tgtSide : ConnectionSide) (coverage localizer : ℚ) (ri : ℕ)
    (hrng : ∀ i, 0 < rng i)
    (hns : ∀ nid, notSustainedTarget s nid = true)
    (htp : ∀ mm ∈ s.modules, 0 < mm.initialWeightModifier.getD (1/5)) :
    netInv s (NeuralNet.connectModules rng angleOf shuffle s A B srcSide tgtSide
      coverage localizer ri).1 := by
  have hInv0 : netInv s (s.disconnectModules A B) := by
    refine ⟨rfl, ?_, ?_⟩
    · intro nid
      have hc := notSustainedTarget_congr s (s.disconnectModules A B) nid rfl rfl
      rw [hc]
      exact hns nid
    · intro c hc
      exact Or.inl (List.mem_of_mem_filter hc)
  unfold NeuralNet.connectModules
  dsimp only
  cases hm : (s.disconnectModules A B).getModule B with
  | none => exact hInv0
  | some targetMod =>
    dsimp only
    split
    · exact hInv0
    · refine foldl_pres (fun (acc : NeuralNet × ℕ) => netInv s acc.1) _ _ _ ?_ ?_
      · -- the initial accumulator: s2ri.1 for the three branches
        have hInv1 : netInv s { s.disconnectModules A B with
            moduleConnections := alistSet (s.disconnectModules A B).moduleConnections
              (A ++ "-" ++ B)
              { sourceId := A, targetId := B, coverage := max 1 (min 100 coverage),
                localizer := localizer, srcSide := srcSide, tgtSide := tgtSide } } := by
          obtain ⟨hn, hnst, hc⟩ := hInv0
          refine ⟨hn, ?_, hc⟩
          intro nid
          rw [show notSustainedTarget { s.disconnectModules A B with
              moduleConnections := alistSet (s.disconnectModules A B).moduleConnections
                (A ++ "-" ++ B)
                { sourceId := A, targetId := B, coverage := max 1 (min 100 coverage),
                  localizer := localizer, srcSide := srcSide, tgtSide := tgtSide } } nid
              = notSustainedTarget (s.disconnectModules A B) nid
            from notSustainedTarget_congr _ _ nid rfl rfl]
          exact hnst nid
        dsimp only
        split
        · split
          · -- localized rewire on the brain target
            apply rewire_inv
            · exact hrng
            · -- positivity of initialWeightModifier survives setModuleLocalized
              intro mm hmm
              obtain ⟨m0, hm0, hfm⟩ := List.mem_map.mp hmm
              rw [← hfm]
              by_cases hb : m0.id == B
              · rw [if_pos hb]
                exact htp m0 hm0
              · rw [if_neg hb]
                exact htp m0 hm0
            · obtain ⟨hn, hnst, hc⟩ := hInv1
              refine ⟨hn, ?_, hc⟩
              intro nid
              rw [notSustainedTarget_setLocalized]
              exact hnst nid
          · exact hInv1
        · exact hInv1
      · intro acc hacc p hp
        dsimp only
        have hsrcmem : p.2 ∈ s.nodes := by
          have h1 := enum_snd_mem _ p hp
          exact getNodesForSide_mem (s.disconnectModules A B) A srcSide p.2 h1
        exact connectLoop_inv rng p.2 _ _ _ _ _ _ s hrng hsrcmem
          (fun iw h => initialWeight_pos _ iw h) _ acc.1 [] acc.2 hacc
/-- C3 (counterexample): both halves of the claim fail. `connectModules`
out of an inhibitory brain node into a sustained-actuator module creates a
positive-weight edge (the renormalization overwrites the Dale-consistent
`-0.75` with `gain/count = 3`), and the plasticity pass's subtractive tax
drives the excitatory-source edge `m-2 → m-1` from `+0.05` to `-0.45`. -/
theorem C3_counterexample :
    (((NeuralNet.connectModules halfRng (fun _ => 0) id cxC3net "b" "so"
        ConnectionSide.ALL ConnectionSide.ALL 100 100 0).1.connections.map
        (fun c => (c.sourceId, c.weight))) = [("b-0", 3)] ∧
      cxC3net.nodes.find? (fun n => n.id == "b-0") = some cxC3srcNode ∧
      cxC3srcNode.neuronType = NeuronType.INHIBITORY) ∧
    (((cxC3taxNet.plasticityPass halfRng 0 0 0).1.connections.map
        (fun c => (c.sourceId, c.weight))) = [("m-0", 4), ("m-2", -(9/20))] ∧
      cxC3taxNet.nodes.find? (fun n => n.id == "m-2") = some (mkExcNode "m-2" 0) ∧
      (mkExcNode "m-2" 0).neuronType = NeuronType.EXCITATORY) := by
  refine ⟨⟨?_, by rfl, by rfl⟩, ⟨?_, by rfl, by rfl⟩⟩
  · norm_num [NeuralNet.connectModules, NeuralNet.disconnectModules,
      NeuralNet.getNodesForSide, NeuralNet.setModuleLocalized,
      NeuralNet.rewireInternalConnections, connectLoop, NeuralNet.addConnection,
      NeuralNet.normalizeSustainedWeights, NeuralNet.incoming, NeuralNet.getNode,
      NeuralNet.getModule, alistGet, alistSet, alistDelete, floorIndex, ratFloorNat,
      cxC3net, cxC3brainMod, cxC3susMod, cxC3srcNode, cxC3tgtNode, BrainNode.init,
      SustainedOutputNode.init, BaseNode.init, halfRng, qOr, natOr,
      List.find?, List.filter, List.foldl, List.enum, List.enumFrom,
      show ("b" ++ "-" : String) = "b-" from rfl,
      show ("so" ++ "-" : String) = "so-" from rfl,
      show strBegins "b-0" "b-" = true from rfl,
      show strBegins "so-0" "b-" = false from rfl,
      show strBegins "b-0" "so-" = false from rfl,
      show strBegins "so-0" "so-" = true from rfl,
      show ("b-0" == "so-0") = false from rfl,
      show ("so-0" == "b-0") = false from rfl,
      show ("b" == "so") = false from rfl,
      show ("so" == "b") = false from rfl,
      (by decide : ModuleType.SUSTAINED_OUTPUT ≠ ModuleType.BRAIN),
      (by decide : NeuronType.INHIBITORY ≠ NeuronType.EXCITATORY)]
  · norm_num [NeuralNet.plasticityPass, NeuralNet.hebbianModulePass, hebbStep,
      cxC3taxNet, cxC3taxMod, mkExcNode, BrainNode.init, BaseNode.init, qOr, halfRng,
      List.filter, List.find?, List.foldl, List.range, List.flatMap, List.get?,
      List.contains, List.elem,
      show ("m-0" == "m-1") = false from rfl, show ("m-1" == "m-0") = false from rfl,
      show ("m-0" == "m-2") = false from rfl, show ("m-2" == "m-0") = false from rfl,
      show ("m-1" == "m-2") = false from rfl, show ("m-2" == "m-1") = false from rfl,
      show strBegins "m-0" "m" = true from rfl,
      show strBegins "m-1" "m" = true from rfl,
      show strBegins "m-2" "m" = true from rfl,
      (show |(9/2 : ℚ)| = 9/2 by norm_num), (show |(1/20 : ℚ)| = 1/20 by norm_num),
      (show |(4 : ℚ)| = 4 by norm_num), (show |(9/20 : ℚ)| = 9/20 by norm_num),
      (show |(7/2 : ℚ)| = 7/2 by norm_num)]

/-- C3: in a net none of whose nodes resolves to a `SUSTAINED_OUTPUT`
module, and with positive random draws and positive initial-weight
modifiers, every connection present after `rewireInternalConnections` or
after `connectModules` is either a pre-existing edge or satisfies Dale's
sign rule: its weight is positive when the source node's neuron type is
EXCITATORY and negative when it is INHIBITORY. (The unamended claim is
false: the sustained-target renormalization overwrites inhibitory-source
weights with the positive `gain/count`, and the plasticity tax pushes
excitatory-source weights negative.) -/
theorem C3_dale_principle (rng : ℕ → ℚ) (angleOf : String → ℚ)
    (shuffle : List NodeState → List NodeState) (s : NeuralNet)
    (hrng : ∀ i, 0 < rng i)
    (hns : ∀ nid, notSustainedTarget s nid = true)
    (htp : ∀ mm ∈ s.modules, 0 < mm.initialWeightModifier.getD (1/5)) :
    (∀ mid ri, ∀ c ∈ (NeuralNet.rewireInternalConnections rng shuffle s mid ri).1.connections,
      c ∈ s.connections ∨ daleSign s c) ∧
    (∀ A B srcSide tgtSide coverage localizer ri,
      ∀ c ∈ (NeuralNet.connectModules rng angleOf shuffle s A B srcSide tgtSide
        coverage localizer ri).1.connections,
      c ∈ s.connections ∨ daleSign s c) := by
  constructor
  · intro mid ri c hc
    exact (rewire_inv rng shuffle s s mid ri hrng htp
      ⟨rfl, hns, fun c2 hc2 => Or.inl hc2⟩).2.2 c hc
  · intro A B srcSide tgtSide coverage localizer ri c hc
    exact (connect_inv rng angleOf shuffle s A B srcSide tgtSide coverage localizer ri
      hrng hns htp).2.2 c hc

/-- C3 (witness): the amended Dale theorem applied to the all-brain net of
the tax counterexample. -/
theorem C3_witness :
    (∀ mid ri, ∀ c ∈ (NeuralNet.rewireInternalConnections halfRng id cxC3taxNet
        mid ri).1.connections,
      c ∈ cxC3taxNet.connections ∨ daleSign cxC3taxNet c) ∧
    (∀ A B srcSide tgtSide coverage localizer ri,
      ∀ c ∈ (NeuralNet.connectModules halfRng (fun _ => 0) id cxC3taxNet A B srcSide
        tgtSide coverage localizer ri).1.connections,
      c ∈ cxC3taxNet.connections ∨ daleSign cxC3taxNet c) := by
  refine C3_dale_principle halfRng (fun _ => 0) id cxC3taxNet ?_ ?_ ?_
  · intro i
    norm_num [halfRng]
  · intro nid
    unfold notSustainedTarget
    cases halist : alistGet cxC3taxNet.nodeModuleMap nid with
    | none => simp only [halist]
    | some mid =>
      have hmem := alistGet_some_mem _ _ _ halist
      have hmid : mid = "m" := by
        simp only [cxC3taxNet, List.mem_cons, List.not_mem_nil, or_false] at hmem
        rcases hmem with h | h | h
        · exact congrArg Prod.snd h
        · exact congrArg Prod.snd h
        · exact congrArg Prod.snd h
      subst hmid
      simp only [halist]
      rfl
  · intro mm hmm
    have : mm = cxC3taxMod := by
      simp only [cxC3taxNet, List.mem_cons, List.not_mem_nil, or_false] at hmm
      exact hmm
    rw [this]
    norm_num [cxC3taxMod]


/-! ### C10: the localization side effect of cross-module wiring -/

theorem normalize_frame (s : NeuralNet) (nid : String) :
    (s.normalizeSustainedWeights nid).modules = s.modules ∧
    (s.normalizeSustainedWeights nid).moduleConnections = s.moduleConnections ∧
    (s.normalizeSustainedWeights nid).nodes = s.nodes ∧
    (s.normalizeSustainedWeights nid).nodeModuleMap = s.nodeModuleMap := by
  unfold NeuralNet.normalizeSustainedWeights
  dsimp only
  repeat' split
  all_goals exact ⟨rfl, rfl, rfl, rfl⟩

theorem addConnection_frame (s : NeuralNet) (cfg : Connection) :
    (s.addConnection cfg).modules = s.modules ∧
    (s.addConnection cfg).moduleConnections = s.moduleConnections ∧
    (s.addConnection cfg).nodes = s.nodes ∧
    (s.addConnection cfg).nodeModuleMap = s.nodeModuleMap := by
  unfold NeuralNet.addConnection
  exact normalize_frame _ _

theorem addConnection_endpoints (s : NeuralNet) (cfg : Connection) (c : Connection)
    (hc : c ∈ (s.addConnection cfg).connections) :
    ∃ c0 ∈ s.connections ++ [{ cfg with signalStrength := 0 }],
      c.id = c0.id ∧ c.sourceId = c0.sourceId ∧ c.targetId = c0.targetId := by
  unfold NeuralNet.addConnection NeuralNet.normalizeSustainedWeights at hc
  dsimp only at hc
  repeat' split at hc
  all_goals first
    | exact ⟨c, hc, rfl, rfl, rfl⟩
    | (obtain ⟨c0, hc0, hfc⟩ := List.mem_map.mp hc
       refine ⟨c0, hc0, ?_⟩
       rw [← hfc]
       split
       · exact ⟨rfl, rfl, rfl⟩
       · exact ⟨rfl, rfl, rfl⟩)

theorem isPrefixOf_append_self (l t : List Char) : l.isPrefixOf (l ++ t) = true := by
  induction l with
  | nil =>
    rw [List.nil_append]
    cases t <;> rfl
  | cons a l2 ih => simp [List.isPrefixOf, ih]

theorem strBegins_of_data (s p : String) (h : ∃ t, s.data = p.data ++ t) :
    strBegins s p = true := by
  obtain ⟨t, ht⟩ := h
  unfold strBegins
  rw [ht]
  exact isPrefixOf_append_self _ _

theorem strBegins_append (p r : String) : strBegins (p ++ r) p = true :=
  strBegins_of_data _ _ ⟨r.data, String.data_append _ _⟩

theorem getModule_congr (s1 s2 : NeuralNet) (h : s1.modules = s2.modules) (mid : String) :
    s1.getModule mid = s2.getModule mid := by
  unfold NeuralNet.getModule
  rw [h]

theorem alistGet_set {β : Type} (l : List (String × β)) (k : String) (v : β) :
    alistGet (alistSet l k v) k = some v := by
  induction l with
  | nil =>
    unfold alistSet alistGet
    simp
  | cons p t ih =>
    by_cases hk : (p.1 == k) = true
    · have hany : (p :: t).any (fun q => q.1 == k) = true := by
        simp [List.any_cons, hk]
      unfold alistSet
      rw [if_pos hany, List.map_cons, if_pos hk]
      unfold alistGet
      rw [List.find?_cons_of_pos _ (by simp)]
      rfl
    · cases hat : t.any (fun q => q.1 == k) with
      | true =>
        have hany : (p :: t).any (fun q => q.1 == k) = true := by
          simp [List.any_cons, hat]
        unfold alistSet
        rw [if_pos hany, List.map_cons, if_neg hk]
        unfold alistGet
        rw [@List.find?_cons_of_neg _ (fun (q : String × β) => q.1 == k) p
          (t.map (fun p => if (p.1 == k) = true then (k, v) else p)) hk]
        have ih2 := ih
        unfold alistSet at ih2
        rw [if_pos hat] at ih2
        exact ih2
      | false =>
        unfold alistSet
        rw [if_neg (by simp [List.any_cons, hat]; simpa using hk), List.cons_append]
        unfold alistGet
        rw [@List.find?_cons_of_neg _ (fun (q : String × β) => q.1 == k) p
          (t ++ [(k, v)]) hk]
        have ih2 := ih
        unfold alistSet at ih2
        rw [if_neg (by simp [hat])] at ih2
        exact ih2

theorem addConnection_locFrame (B : String) (map : List (String × String))
    (M : List ModuleConfig) (MC : List (String × ModuleConnectionConfig))
    (s' : NeuralNet) (cfg : Connection)
    (h : localizeFrame B map M MC s') (hpref : strBegins cfg.id "c-" = true) :
    localizeFrame B map M MC (s'.addConnection cfg) := by
  obtain ⟨hM, hMC, hQ⟩ := h
  obtain ⟨f1, f2, f3, f4⟩ := addConnection_frame s' cfg
  refine ⟨by rw [f1, hM], by rw [f2, hMC], ?_⟩
  intro c hc
  obtain ⟨c0, hc0, hid, hsrc, htgt⟩ := addConnection_endpoints s' cfg c hc
  rcases List.mem_append.mp hc0 with h0 | h0
  · rcases hQ c0 h0 with h1 | h1
    · left
      rw [hsrc, htgt]
      exact h1
    · right
      rw [hid]
      exact h1
  · right
    rw [hid, List.mem_singleton.mp h0]
    exact hpref

theorem rewire_locFrame (rng : ℕ → ℚ) (shuffle : List NodeState → List NodeState)
    (B : String) (M : List ModuleConfig) (MC : List (String × ModuleConnectionConfig))
    (s' : NeuralNet) (ri : ℕ)
    (hM : s'.modules = M) (hMC : s'.moduleConnections = MC)
    (hg : ∃ m, s'.getModule B = some m) :
    localizeFrame B s'.nodeModuleMap M MC
      (NeuralNet.rewireInternalConnections rng shuffle s' B ri).1 := by
  obtain ⟨m, hgm⟩ := hg
  unfold NeuralNet.rewireInternalConnections
  simp only [hgm]
  have h1 : localizeFrame B s'.nodeModuleMap M MC { s' with
      connections := s'.connections.filter (fun c =>
        ¬ (alistGet s'.nodeModuleMap c.sourceId == some B ∧
           alistGet s'.nodeModuleMap c.targetId == some B)) } := by
    refine ⟨hM, hMC, ?_⟩
    intro c hc
    left
    have hcf := (List.mem_filter.mp hc).2
    simp only [decide_eq_true_eq, beq_iff_eq] at hcf
    intro hcontra
    exact hcf ⟨by simp [hcontra.1], by simp [hcontra.2]⟩
  refine foldl_pres (fun (acc : NeuralNet × ℕ) => localizeFrame B s'.nodeModuleMap M MC acc.1)
    _ _ _ h1 ?_
  intro acc hacc source hsmem
  dsimp only
  refine foldl_pres (fun (st : List NodeState × NeuralNet × ℕ) =>
    localizeFrame B s'.nodeModuleMap M MC st.2.1) _ _ _ hacc ?_
  intro st hst k hk
  obtain ⟨cands, scur, ricur⟩ := st
  unfold rewireStep
  dsimp only at hst ⊢
  split
  · exact hst
  · rename_i target cands2 ri2 heq
    dsimp only
    apply addConnection_locFrame _ _ _ _ _ _ hst
    simp only [String.append_assoc]
    exact strBegins_append _ _

theorem connectLoop_locFrame (rng : ℕ → ℚ) (src : NodeState)
    (candidates preferred : List NodeState) (useLoc : Bool) (localizer : ℚ)
    (initialWeight : Option ℚ) (cps : ℕ)
    (B : String) (map : List (String × String)) (M : List ModuleConfig)
    (MC : List (String × ModuleConnectionConfig)) :
    ∀ fuel (s' : NeuralNet) (connected : List String) (ri : ℕ),
      localizeFrame B map M MC s' →
      localizeFrame B map M MC (connectLoop rng src candidates preferred useLoc localizer
        initialWeight cps fuel s' connected ri).1 := by
  intro fuel
  induction fuel with
  | zero =>
    intro s' connected ri h
    exact h
  | succ n ih =>
    intro s' connected ri h
    rw [connectLoop]
    split
    · exact h
    · dsimp only
      repeat' first
        | exact ih _ _ _ h
        | (apply ih
           apply addConnection_locFrame _ _ _ _ _ _ h
           simp only [String.append_assoc]
           exact strBegins_append _ _)
        | split

theorem connect_locFrame (rng : ℕ → ℚ) (angleOf : String → ℚ)
    (shuffle : List NodeState → List NodeState) (s : NeuralNet)
    (A B : String) (srcSide tgtSide : ConnectionSide) (coverage localizer : ℚ)
    (ri : ℕ) (tm : ModuleConfig)
    (hlt : localizer < 100)
    (htm : s.getModule B = some tm)
    (htype : tm.type = ModuleType.BRAIN)
    (hloc : tm.isLocalized.getD false = false)
    (hgA : ¬ (s.getNodesForSide A srcSide).length = 0)
    (hgB : ¬ (s.getNodesForSide B tgtSide).length = 0) :
    localizeFrame B s.nodeModuleMap
      (s.modules.map (fun mm => if mm.id == B then { mm with isLocalized := some true } else mm))
      (alistSet (s.disconnectModules A B).moduleConnections (A ++ "-" ++ B)
        { sourceId := A, targetId := B, coverage := max 1 (min 100 coverage),
          localizer := localizer, srcSide := srcSide, tgtSide := tgtSide })
      (NeuralNet.connectModules rng angleOf shuffle s A B srcSide tgtSide
        coverage localizer ri).1 := by
  unfold NeuralNet.connectModules
  have hm0 : (s.disconnectModules A B).getModule B = some tm := htm
  simp only [hm0]
  have hguard : ¬ (((s.disconnectModules A B).getNodesForSide A srcSide).length = 0 ∨
      ((s.disconnectModules A B).getNodesForSide B tgtSide).length = 0) := by
    rw [disconnect_nodesForSide, disconnect_nodesForSide]
    rintro (h | h)
    · exact hgA h
    · exact hgB h
  rw [if_neg hguard]
  rw [if_pos ⟨htype, hlt⟩, if_pos (by rw [hloc]; simp)]
  have hg1 : ∀ (x : NeuralNet), x.getModule B = some tm →
      ∃ m2, (x.setModuleLocalized B).getModule B = some m2 := by
    intro x hx
    refine ⟨(if tm.id == B then { tm with isLocalized := some true } else tm), ?_⟩
    rw [getModule_setLocalized, hx]
    rfl
  refine foldl_pres (fun (acc : NeuralNet × ℕ) => localizeFrame B s.nodeModuleMap _ _ acc.1)
    _ _ _ ?_ ?_
  · exact rewire_locFrame rng shuffle B _ _ _ ri rfl rfl (hg1 s htm)
  · intro acc hacc p hp
    dsimp only
    exact connectLoop_locFrame rng p.2 _ _ _ _ _ _ B s.nodeModuleMap _ _
      _ acc.1 [] acc.2 hacc

/-- C10: calling `connectModules(A, B, ..., localizer)` with `localizer <
100` on a BRAIN target module `B` whose `isLocalized` flag is unset (and
with both sides non-empty) has, besides creating the requested cross
edges, the side effects the claim describes: the stored config for `B` has
`isLocalized` forced to `true`, the `A-B` link config is stored, and every
pre-existing connection with both endpoints in module `B` is deleted (its
weight discarded; the regenerated internal edges are fresh `c-`-prefixed
ones), provided no pre-existing connection id uses the generated `c-`
prefix. -/
theorem C10_localization_side_effect (rng : ℕ → ℚ) (angleOf : String → ℚ)
    (shuffle : List NodeState → List NodeState) (s : NeuralNet)
    (A B : String) (srcSide tgtSide : ConnectionSide) (coverage localizer : ℚ)
    (ri : ℕ) (tm : ModuleConfig)
    (hlt : localizer < 100)
    (htm : s.getModule B = some tm)
    (htype : tm.type = ModuleType.BRAIN)
    (hloc : tm.isLocalized.getD false = false)
    (hgA : ¬ (s.getNodesForSide A srcSide).length = 0)
    (hgB : ¬ (s.getNodesForSide B tgtSide).length = 0)
    (hid : ∀ c ∈ s.connections, strBegins c.id "c-" = false) :
    (NeuralNet.connectModules rng angleOf shuffle s A B srcSide tgtSide
        coverage localizer ri).1.getModule B
      = some { tm with isLocalized := some true } ∧
    alistGet (NeuralNet.connectModules rng angleOf shuffle s A B srcSide tgtSide
        coverage localizer ri).1.moduleConnections (A ++ "-" ++ B)
      = some { sourceId := A, targetId := B, coverage := max 1 (min 100 coverage),
               localizer := localizer, srcSide := srcSide, tgtSide := tgtSide } ∧
    (∀ c ∈ s.connections, alistGet s.nodeModuleMap c.sourceId = some B →
      alistGet s.nodeModuleMap c.targetId = some B →
      c ∉ (NeuralNet.connectModules rng angleOf shuffle s A B srcSide tgtSide
        coverage localizer ri).1.connections) := by
  obtain ⟨hM, hMC, hQ⟩ := connect_locFrame rng angleOf shuffle s A B srcSide tgtSide
    coverage localizer ri tm hlt htm htype hloc hgA hgB
  refine ⟨?_, ?_, ?_⟩
  · have h1 : (NeuralNet.connectModules rng angleOf shuffle s A B srcSide tgtSide
        coverage localizer ri).1.getModule B = (s.setModuleLocalized B).getModule B := by
      apply getModule_congr
      rw [hM]
      rfl
    rw [h1, getModule_setLocalized, htm]
    have htm2 : List.find? (fun mm => mm.id == B) s.modules = some tm := htm
    have htmB : (tm.id == B) = true := by
      have := List.find?_some htm2
      simpa using this
    rw [show Option.map (fun m => if m.id == B then { m with isLocalized := some true } else m)
        (some tm) = some (if tm.id == B then { tm with isLocalized := some true } else tm)
      from rfl]
    rw [if_pos htmB]
  · rw [hMC]
    exact alistGet_set _ _ _
  · intro c hcmem hs ht hmem
    rcases hQ c hmem with hq | hq
    · exact hq ⟨hs, ht⟩
    · rw [hid c hcmem] at hq
      exact Bool.false_ne_true hq

/-- C10 (witness): the side effect exhibited on a two-module brain net
whose target module carries a stale weight-7 self-loop. -/
theorem C10_witness :
    (NeuralNet.connectModules halfRng (fun _ => 0) id wC10net "a" "b"
        ConnectionSide.ALL ConnectionSide.ALL 50 0 0).1.getModule "b"
      = some { id := "b", type := .BRAIN, x := 0, y := 0, nodeCount := 1,
               isLocalized := some true } ∧
    alistGet (NeuralNet.connectModules halfRng (fun _ => 0) id wC10net "a" "b"
        ConnectionSide.ALL ConnectionSide.ALL 50 0 0).1.moduleConnections ("a" ++ "-" ++ "b")
      = some { sourceId := "a", targetId := "b", coverage := max 1 (min 100 50),
               localizer := 0, srcSide := ConnectionSide.ALL,
               tgtSide := ConnectionSide.ALL } ∧
    (∀ c ∈ wC10net.connections, alistGet wC10net.nodeModuleMap c.sourceId = some "b" →
      alistGet wC10net.nodeModuleMap c.targetId = some "b" →
      c ∉ (NeuralNet.connectModules halfRng (fun _ => 0) id wC10net "a" "b"
        ConnectionSide.ALL ConnectionSide.ALL 50 0 0).1.connections) := by
  refine C10_localization_side_effect halfRng (fun _ => 0) id wC10net "a" "b"
    ConnectionSide.ALL ConnectionSide.ALL 50 0 0
    { id := "b", type := .BRAIN, x := 0, y := 0, nodeCount := 1 }
    (by norm_num) (by rfl) (by rfl) (by rfl) (by decide) (by decide) ?_
  intro c hc
  have hce : c = { id := "old", sourceId := "b-0", targetId := "b-0", weight := 7 } := by
    simpa [wC10net] using hc
  rw [hce]
  rfl

end NNB
